import Mathlib

/-!
# nexmo-verify-go-sdk: request signing and response verification

A shallow embedding of `main.go` (package `nexmoVerifySDK`).

* A Go `string` and a Go `[]byte` are both byte sequences, `List UInt8`.
* A Go `map[string]string` is an association list; the order of the listing is
  the order in which `range` enumerates the map, which Go leaves unspecified.
  A function that only reads a map takes its contents (a `nil` map reads as the
  empty map); `VerifySearch`, which writes to its argument, takes a `MapValue`
  that tells `nil` from an allocated map, and can end in a run-time panic.
* The standard-library calls (`crypto/md5`, `encoding/hex`, `sort.Strings`,
  `regexp`, `strconv.Itoa`, `net/url`) are modelled by executable definitions;
  the clock, the HTTP round trip and `json.Unmarshal` are explicit parameters.
-/

set_option maxRecDepth 100000

namespace NexmoVerify

/-! ## Go strings -/

/-- A Go `string`: an immutable sequence of bytes. -/
abbrev GoString := List UInt8

/-- A Go string literal: the UTF-8 bytes of the text. -/
def str (s : String) : GoString := s.data.flatMap String.utf8EncodeChar

/-! ## `crypto/md5` (RFC 1321) -/

/-- Per-round left-rotation amounts. -/
def md5Shifts : List Nat :=
  [7, 12, 17, 22, 7, 12, 17, 22, 7, 12, 17, 22, 7, 12, 17, 22,
   5, 9, 14, 20, 5, 9, 14, 20, 5, 9, 14, 20, 5, 9, 14, 20,
   4, 11, 16, 23, 4, 11, 16, 23, 4, 11, 16, 23, 4, 11, 16, 23,
   6, 10, 15, 21, 6, 10, 15, 21, 6, 10, 15, 21, 6, 10, 15, 21]

/-- The sine-derived additive constants. -/
def md5Consts : List Nat :=
  [0xd76aa478, 0xe8c7b756, 0x242070db, 0xc1bdceee, 0xf57c0faf, 0x4787c62a, 0xa8304613, 0xfd469501,
   0x698098d8, 0x8b44f7af, 0xffff5bb1, 0x895cd7be, 0x6b901122, 0xfd987193, 0xa679438e, 0x49b40821,
   0xf61e2562, 0xc040b340, 0x265e5a51, 0xe9b6c7aa, 0xd62f105d, 0x02441453, 0xd8a1e681, 0xe7d3fbc8,
   0x21e1cde6, 0xc33707d6, 0xf4d50d87, 0x455a14ed, 0xa9e3e905, 0xfcefa3f8, 0x676f02d9, 0x8d2a4c8a,
   0xfffa3942, 0x8771f681, 0x6d9d6122, 0xfde5380c, 0xa4beea44, 0x4bdecfa9, 0xf6bb4b60, 0xbebfbc70,
   0x289b7ec6, 0xeaa127fa, 0xd4ef3085, 0x04881d05, 0xd9d4d039, 0xe6db99e5, 0x1fa27cf8, 0xc4ac5665,
   0xf4292244, 0x432aff97, 0xab9423a7, 0xfc93a039, 0x655b59c3, 0x8f0ccc92, 0xffeff47d, 0x85845dd1,
   0x6fa87e4f, 0xfe2ce6e0, 0xa3014314, 0x4e0811a1, 0xf7537e82, 0xbd3af235, 0x2ad7d2bb, 0xeb86d391]

/-- The modulus of 32-bit word arithmetic. -/
def word32 : Nat := 2 ^ 32

/-- Bitwise complement of a 32-bit word. -/
def not32 (x : Nat) : Nat := (word32 - 1) ^^^ (x % word32)

/-- Rotate a 32-bit word left by `n` bits. -/
def rotl32 (x n : Nat) : Nat :=
  (((x % word32) <<< n) ||| ((x % word32) >>> (32 - n))) % word32

/-- The four chaining words A, B, C, D. -/
structure Md5State where
  a : Nat
  b : Nat
  c : Nat
  d : Nat
  deriving DecidableEq, Repr

/-- The initial chaining value. -/
def md5Init : Md5State := ⟨0x67452301, 0xefcdab89, 0x98badcfe, 0x10325476⟩

/-- Round `i` (0 ≤ i < 64) of the compression function on message words `m`. -/
def md5Round (m : List Nat) (st : Md5State) (i : Nat) : Md5State :=
  let f :=
    if i < 16 then (st.b &&& st.c) ||| (not32 st.b &&& st.d)
    else if i < 32 then (st.d &&& st.b) ||| (not32 st.d &&& st.c)
    else if i < 48 then st.b ^^^ st.c ^^^ st.d
    else st.c ^^^ (st.b ||| not32 st.d)
  let g :=
    if i < 16 then i
    else if i < 32 then (5 * i + 1) % 16
    else if i < 48 then (3 * i + 5) % 16
    else (7 * i) % 16
  let t := (f + st.a + md5Consts.getD i 0 + m.getD g 0) % word32
  ⟨st.d, (st.b + rotl32 t (md5Shifts.getD i 0)) % word32, st.b, st.c⟩

/-- Decode little-endian 32-bit words from bytes (four bytes per word). -/
def wordsLE : List UInt8 → List Nat
  | b0 :: b1 :: b2 :: b3 :: rest =>
      (b0.toNat + 256 * b1.toNat + 65536 * b2.toNat + 16777216 * b3.toNat) :: wordsLE rest
  | _ => []

/-- Process one 64-byte block. -/
def md5Block (st : Md5State) (block : List UInt8) : Md5State :=
  let r := (List.range 64).foldl (md5Round (wordsLE block)) st
  ⟨(st.a + r.a) % word32, (st.b + r.b) % word32, (st.c + r.c) % word32, (st.d + r.d) % word32⟩

/-- Little-endian bytes of the low `n` bytes of `x`. -/
def bytesLE : Nat → Nat → List UInt8
  | 0, _ => []
  | n + 1, x => UInt8.ofNat (x % 256) :: bytesLE n (x / 256)

/-- RFC 1321 padding: a 0x80 byte, zero bytes up to 56 mod 64, then the bit
length as a 64-bit little-endian integer. -/
def md5Pad (msg : List UInt8) : List UInt8 :=
  msg ++ [0x80] ++ List.replicate ((119 - msg.length % 64) % 64) 0
    ++ bytesLE 8 ((8 * msg.length) % 2 ^ 64)

/-- Run the compression function over `n` consecutive 64-byte blocks. -/
def md5Blocks : Nat → Md5State → List UInt8 → Md5State
  | 0, st, _ => st
  | n + 1, st, bytes => md5Blocks n (md5Block st (bytes.take 64)) (bytes.drop 64)

/-- Model of `md5.Sum`: the 16-byte MD5 digest of `msg`. -/
def md5Sum (msg : List UInt8) : List UInt8 :=
  let p := md5Pad msg
  let st := md5Blocks (p.length / 64) md5Init p
  bytesLE 4 st.a ++ bytesLE 4 st.b ++ bytesLE 4 st.c ++ bytesLE 4 st.d

/-! ## `encoding/hex` -/

/-- The digit table of `encoding/hex`. -/
def hextable : GoString := str "0123456789abcdef"

/-- Model of `hex.EncodeToString`: two lowercase hexadecimal digits per byte. -/
def hexEncodeToString : List UInt8 → GoString
  | [] => []
  | b :: rest =>
      hextable.getD (b.toNat / 16) 0 :: hextable.getD (b.toNat % 16) 0 :: hexEncodeToString rest

/-! ## String comparison and `sort.Strings` -/

/-- Go's `<` on strings: byte-wise lexicographic comparison. -/
def strLess : GoString → GoString → Bool
  | [], [] => false
  | [], _ :: _ => true
  | _ :: _, [] => false
  | a :: as, b :: bs =>
      if a.toNat < b.toNat then true
      else if b.toNat < a.toNat then false
      else strLess as bs

/-- Go's `<=` on strings, as the negation of the reversed `<`. -/
def strLessEq (a b : GoString) : Prop := strLess b a = false

instance : DecidableRel strLessEq := fun a b => by
  unfold strLessEq; exact inferInstance

/-- Model of `sort.Strings`: the slice sorted in increasing order. -/
def sortStrings (keys : List GoString) : List GoString :=
  keys.insertionSort strLessEq

/-! ## `map[string]string` -/

/-- A Go `map[string]string`, listed in the order `range` enumerates it. -/
abbrev GoMap := List (GoString × GoString)

/-- The keys of a map in enumeration order. -/
def mapKeys (m : GoMap) : List GoString := m.map Prod.fst

/-- A listing denotes a Go map when no key occurs twice. -/
def WellFormed (m : GoMap) : Prop := (mapKeys m).Nodup

instance (m : GoMap) : Decidable (WellFormed m) := by
  unfold WellFormed; exact inferInstance

/-- The index expression `m[k]`: the value stored under `k`, or the zero
value `""` when `k` is absent. -/
def mapIndex : GoMap → GoString → GoString
  | [], _ => []
  | (k', v) :: rest, k => if k' = k then v else mapIndex rest k

/-- The assignment `m[k] = v`. -/
def mapAssign : GoMap → GoString → GoString → GoMap
  | [], k, v => [(k, v)]
  | (k', v') :: rest, k, v =>
      if k' = k then (k', v) :: rest else (k', v') :: mapAssign rest k v

/-- The map without the key `k` (`delete(m, k)`). -/
def mapDelete (m : GoMap) (k : GoString) : GoMap :=
  m.filter (fun kv => decide (kv.1 ≠ k))

/-! ## `main.go` : package-level variables -/

/-- `var endpointUrls = map[string]string{...}`. -/
def endpointUrls : GoMap :=
  [(str "getToken", str "https://api.nexmo.com/sdk/token/json"),
   (str "verifySearch", str "https://api.nexmo.com/sdk/verify/search/json")]

/-- The character class of `tokenReplaceRegexp`, `[&,=]`: whether a byte matches. -/
def tokenReplaceRegexp (b : UInt8) : Bool := (str "&,=").contains b

/-- `tokenReplaceRegexp.ReplaceAllString(src, repl)` for a replacement without
`$` references: every matching byte is replaced by `repl`. -/
def ReplaceAllString (src repl : GoString) : GoString :=
  src.flatMap (fun b => if tokenReplaceRegexp b then repl else [b])

/-! ## `main.go` : signing -/

/-- `sortKeys`: collect the keys by ranging over the map, then sort them. -/
def sortKeys (params : GoMap) : List GoString :=
  let keys := params.foldl (fun keys kv => keys ++ [kv.1]) []
  sortStrings keys

/-- One iteration of the loop of `createSignature` over the sorted keys. -/
def signatureStep (params : GoMap) (queryString key : GoString) : GoString :=
  let value := mapIndex params key
  let value := if key = str "token" then ReplaceAllString value (str "_") else value
  queryString ++ str "&" ++ key ++ str "=" ++ value

/-- The string `queryString` of `createSignature` when its loop has finished. -/
def canonicalString (params : GoMap) : GoString :=
  (sortKeys params).foldl (signatureStep params) []

/-- `createSignature(params, sharedSecret)`. -/
def createSignature (params : GoMap) (sharedSecret : GoString) : GoString :=
  let queryString := canonicalString params
  if queryString.length = 0 then []
  else
    let queryString := queryString ++ sharedSecret
    let signature := md5Sum queryString
    hexEncodeToString signature

/-- Model of `strconv.Itoa`. -/
def itoa (n : Int) : GoString := str (toString n)

/-- The local state of `generateParameters`: the caller's map, which the
function holds by reference, and the map it makes. -/
structure ParamsState where
  params : GoMap
  copyParams : GoMap
  deriving DecidableEq

/-- `generateParameters(params, appId, sharedSecret)`, with the reading `now`
of `time.Now().UTC().Unix()`. The result holds the caller's map after the
call and the returned map. -/
def generateParameters (params : GoMap) (appId sharedSecret : GoString) (now : Int) :
    ParamsState :=
  let st : ParamsState := ⟨params, []⟩
  let st := st.params.foldl (fun st kv => { st with copyParams := mapAssign st.copyParams kv.1 kv.2 }) st
  let st := { st with copyParams := mapAssign st.copyParams (str "app_id") appId }
  let st := { st with copyParams := mapAssign st.copyParams (str "timestamp") (itoa now) }
  let sig := createSignature st.copyParams sharedSecret
  let st := { st with copyParams := mapAssign st.copyParams (str "sig") sig }
  st

/-! ## `main.go` : response verification -/

/-- A Go `error` value, identified with its message. -/
structure GoError where
  text : GoString
  deriving DecidableEq

/-- `errors.New(text)`. -/
def errorsNew (text : GoString) : GoError := ⟨text⟩

/-- `validateResponseSignature(responseJson, responseSignature, sharedSecret)`;
`none` is the `nil` error. -/
def validateResponseSignature (responseJson : List UInt8) (responseSignature sharedSecret : GoString) :
    Option GoError :=
  if responseSignature.length = 0 then some (errorsNew (str "Missing Response Signature"))
  else
    let signatureString := responseJson ++ sharedSecret
    let signature := md5Sum signatureString
    if hexEncodeToString signature ≠ responseSignature then
      some (errorsNew (str "Invalid Response Signature"))
    else none

/-! ## `net/url` and `net/http` -/

/-- `shouldEscape(c, encodeQueryComponent)` of `net/url`: every byte except
the ASCII letters, the digits and `-`, `_`, `.`, `~`. -/
def shouldEscape (c : UInt8) : Bool :=
  !((97 ≤ c.toNat && c.toNat ≤ 122) || (65 ≤ c.toNat && c.toNat ≤ 90)
    || (48 ≤ c.toNat && c.toNat ≤ 57) || (str "-_.~").contains c)

/-- The upper-case digit table of `net/url`. -/
def upperhex : GoString := str "0123456789ABCDEF"

/-- Model of `url.QueryEscape`. -/
def QueryEscape (s : GoString) : GoString :=
  s.flatMap (fun c =>
    if c = 32 then str "+"
    else if shouldEscape c then
      str "%" ++ [upperhex.getD (c.toNat / 16) 0, upperhex.getD (c.toNat % 16) 0]
    else [c])

/-- Model of `url.Values.Encode` for values holding one string per key:
`key=value` pairs in sorted key order, joined by `&`, both sides escaped. -/
def valuesEncode (data : GoMap) : GoString :=
  (sortStrings (mapKeys data)).foldl
    (fun buf k =>
      (if buf.length > 0 then buf ++ str "&" else buf)
        ++ QueryEscape k ++ str "=" ++ QueryEscape (mapIndex data k))
    []

/-- `mapToQueryString(params)`. -/
def mapToQueryString (params : GoMap) : GoString :=
  let data := params.foldl (fun data kv => mapAssign data kv.1 kv.2) []
  valuesEncode data

/-- The part of an `*http.Request` that `generateRequest` determines: method,
URL, and the header fields in the order they are added. -/
structure Request where
  method : GoString
  url : GoString
  header : List (GoString × GoString)
  deriving DecidableEq

/-- `req.Header.Add(key, value)`. -/
def Request.headerAdd (req : Request) (key value : GoString) : Request :=
  { req with header := req.header ++ [(key, value)] }

/-! ## `main.go` : types -/

/-- `type Client struct`. -/
structure Client where
  appId : GoString
  osFamily : GoString
  osRevision : GoString
  sdkRevision : GoString
  sharedSecret : GoString
  deriving DecidableEq

/-- `NewClient(appId, sharedSecret)`. -/
def NewClient (appId sharedSecret : GoString) : Client :=
  { appId := appId, osFamily := str "ANDROID", sdkRevision := str "1.0",
    osRevision := str "23", sharedSecret := sharedSecret }

/-- `type BaseResponse struct`. -/
structure BaseResponse where
  ResultCode : Int
  ResultMessage : GoString
  Timestamp : GoString
  deriving DecidableEq

/-- `type VerifySearchResponse struct`. -/
structure VerifySearchResponse extends BaseResponse where
  UserStatus : GoString
  deriving DecidableEq

/-- `type GetTokenResponse struct`. -/
structure GetTokenResponse extends BaseResponse where
  Token : GoString
  deriving DecidableEq

/-- The zero value of `VerifySearchResponse` (`var respObj VerifySearchResponse`). -/
def VerifySearchResponse.zero : VerifySearchResponse :=
  { ResultCode := 0, ResultMessage := [], Timestamp := [], UserStatus := [] }

/-- The zero value of `GetTokenResponse` (`var respObj GetTokenResponse`). -/
def GetTokenResponse.zero : GetTokenResponse :=
  { ResultCode := 0, ResultMessage := [], Timestamp := [], Token := [] }

/-! ## The environment of a call -/

/-- What one HTTP exchange hands back: the error of `client.Do`, or the bytes
`ioutil.ReadAll` read from the body together with the value of
`resp.Header.Get("X-NEXMO-RESPONSE-SIGNATURE")` (empty when absent). -/
inductive RoundTrip where
  | failed (err : GoError)
  | response (content : List UInt8) (responseSignature : GoString)
  deriving DecidableEq

/-- The collaborators outside the package, over an external state `σ`: the
clock, the HTTP client, and `json.Unmarshal` at the two response types (given
the bytes and the object to fill, it returns the object and the error). -/
structure Env (σ : Type) where
  now : σ → Int × σ
  clientDo : Request → σ → RoundTrip × σ
  unmarshalToken : List UInt8 → GetTokenResponse → GetTokenResponse × Option GoError
  unmarshalSearch : List UInt8 → VerifySearchResponse → VerifySearchResponse × Option GoError

/-- The observable actions of the package. -/
inductive Event where
  | clientDo (req : Request)
  | unmarshal (content : List UInt8)
  deriving DecidableEq

/-- External state plus the record of the actions taken so far. -/
structure World (σ : Type) where
  ext : σ
  trace : List Event
  deriving DecidableEq

/-- `client.Do(req)` followed by reading body and signature header. -/
def httpDo {σ : Type} (env : Env σ) (req : Request) (w : World σ) : RoundTrip × World σ :=
  let r := env.clientDo req w.ext
  (r.1, ⟨r.2, w.trace ++ [Event.clientDo req]⟩)

/-- The number of requests in a trace whose URL starts with `url` followed by `?`. -/
def requestsTo (url : GoString) (trace : List Event) : Nat :=
  (trace.filter (fun ev =>
    match ev with
    | Event.clientDo req => (url ++ str "?").isPrefixOf req.url
    | Event.unmarshal _ => false)).length

/-- The number of HTTP requests in a trace. -/
def requestCount (trace : List Event) : Nat :=
  (trace.filter (fun ev =>
    match ev with
    | Event.clientDo _ => true
    | Event.unmarshal _ => false)).length

/-! ## `main.go` : the two calls -/

/-- `(*Client).generateRequest(params, url)`. -/
def generateRequest {σ : Type} (env : Env σ) (self : Client) (params : GoMap) (url : GoString)
    (w : World σ) : (Request × Option GoError) × World σ :=
  let t := env.now w.ext
  let payload := (generateParameters params self.appId self.sharedSecret t.1).copyParams
  let queryString := mapToQueryString payload
  let req : Request := ⟨str "GET", url ++ str "?" ++ queryString, []⟩
  let req := req.headerAdd (str "Content-Type") (str "application/x\u00ADwww\u00ADform\u00ADurlencoded")
  let req := req.headerAdd (str "Content-Encoding") (str "UTF-8")
  let req := req.headerAdd (str "X-NEXMO-SDK-OS-FAMILY") self.osFamily
  let req := req.headerAdd (str "X-NEXMO-SDK-OS-REVISION") self.osRevision
  let req := req.headerAdd (str "X-NEXMO-SDK-REVISION") self.sdkRevision
  ((req, none), ⟨t.2, w.trace⟩)

/-- `(*Client).GetToken(params)`: the response object, the error, and the
world after the call. -/
def GetToken {σ : Type} (env : Env σ) (self : Client) (params : GoMap) (w : World σ) :
    (GetTokenResponse × Option GoError) × World σ :=
  let respObj := GetTokenResponse.zero
  match generateRequest env self params (mapIndex endpointUrls (str "getToken")) w with
  | ((_, some err), w) => ((respObj, some err), w)
  | ((req, none), w) =>
    match httpDo env req w with
    | (RoundTrip.failed err, w) => ((respObj, some err), w)
    | (RoundTrip.response content responseSignature, w) =>
      match validateResponseSignature content responseSignature self.sharedSecret with
      | some err => ((respObj, some err), w)
      | none =>
        let w : World σ := ⟨w.ext, w.trace ++ [Event.unmarshal content]⟩
        match env.unmarshalToken content respObj with
        | (respObj, some err) => ((respObj, some err), w)
        | (respObj, none) => ((respObj, none), w)

/-- The map literal `VerifySearch` passes to `GetToken`. -/
def tokenParams (params : GoMap) : GoMap :=
  mapAssign
    (mapAssign [] (str "device_id") (mapIndex params (str "device_id")))
    (str "source_ip_address") (mapIndex params (str "source_ip_address"))

/-- A value of type `map[string]string` as a caller holds it: `nil`, or an
allocated map. -/
inductive MapValue where
  | nil
  | made (m : GoMap)
  deriving DecidableEq

/-- What reading a map value sees: a `nil` map reads as the empty map. -/
def MapValue.contents : MapValue → GoMap
  | MapValue.nil => []
  | MapValue.made m => m

/-- How a call of `VerifySearch` ends: it returns the response object, the
error, the caller's map after the call and the world after the call; or it
panics, leaving the world as it was at the panic. -/
inductive Outcome (σ : Type) where
  | returned (r : (VerifySearchResponse × Option GoError) × MapValue × World σ)
  | panicked (message : GoString) (w : World σ)
  deriving DecidableEq

/-- The world after the call. -/
def Outcome.world {σ : Type} : Outcome σ → World σ
  | Outcome.returned r => r.2.2
  | Outcome.panicked _ w => w

/-- The returned response object and error, when the call returns. -/
def Outcome.result {σ : Type} : Outcome σ → Option (VerifySearchResponse × Option GoError)
  | Outcome.returned r => some r.1
  | Outcome.panicked _ _ => none

/-- The caller's map after the call, when the call returns. -/
def Outcome.params {σ : Type} : Outcome σ → Option MapValue
  | Outcome.returned r => some r.2.1
  | Outcome.panicked _ _ => none

/-- `(*Client).VerifySearch(params)`. The assignment `params["token"] = ...`
panics when `params` is `nil`. -/
def VerifySearch {σ : Type} (env : Env σ) (self : Client) (params : MapValue) (w : World σ) :
    Outcome σ :=
  let respObj := VerifySearchResponse.zero
  match GetToken env self (tokenParams params.contents) w with
  | ((_, some _), w) => Outcome.returned ((respObj, none), params, w)
  | ((tokenResponse, none), w) =>
    if tokenResponse.ResultCode ≠ 0 then
      Outcome.returned ((respObj, some (errorsNew tokenResponse.ResultMessage)), params, w)
    else
      match params with
      | MapValue.nil => Outcome.panicked (str "assignment to entry in nil map") w
      | MapValue.made m =>
        let m := mapAssign m (str "token") tokenResponse.Token
        match generateRequest env self m (mapIndex endpointUrls (str "verifySearch")) w with
        | ((_, some err), w) => Outcome.returned ((respObj, some err), MapValue.made m, w)
        | ((req, none), w) =>
          match httpDo env req w with
          | (RoundTrip.failed err, w) =>
            Outcome.returned ((respObj, some err), MapValue.made m, w)
          | (RoundTrip.response content responseSignature, w) =>
            match validateResponseSignature content responseSignature self.sharedSecret with
            | some err => Outcome.returned ((respObj, some err), MapValue.made m, w)
            | none =>
              let w : World σ := ⟨w.ext, w.trace ++ [Event.unmarshal content]⟩
              match env.unmarshalSearch content respObj with
              | (respObj, some err) =>
                Outcome.returned ((respObj, some err), MapValue.made m, w)
              | (respObj, none) => Outcome.returned ((respObj, none), MapValue.made m, w)

/-- The URLs of the requests in a trace, in the order they were sent. -/
def requestUrls (trace : List Event) : List GoString :=
  trace.filterMap (fun ev =>
    match ev with
    | Event.clientDo req => some req.url
    | Event.unmarshal _ => none)

/-! ## Reference definitions, following the specification -/

/-- The lowercase hexadecimal digit of a value below 16. -/
def lowerHexDigit (n : Nat) : UInt8 := UInt8.ofNat (if n < 10 then 48 + n else 87 + n)

/-- The lowercase hexadecimal rendering of a byte sequence. -/
def lowerHex (bytes : List UInt8) : GoString :=
  bytes.flatMap (fun b => [lowerHexDigit (b.toNat / 16), lowerHexDigit (b.toNat % 16)])

/-- The uppercase hexadecimal digit of a value below 16. -/
def upperHexDigit (n : Nat) : UInt8 := UInt8.ofNat (if n < 10 then 48 + n else 55 + n)

/-- The uppercase hexadecimal rendering of a byte sequence. -/
def upperHex (bytes : List UInt8) : GoString :=
  bytes.flatMap (fun b => [upperHexDigit (b.toNat / 16), upperHexDigit (b.toNat % 16)])

/-- The bytes `&` (0x26), `,` (0x2c) and `=` (0x3d). -/
def isDelimiter (b : UInt8) : Prop := b = 0x26 ∨ b = 0x2c ∨ b = 0x3d

instance (b : UInt8) : Decidable (isDelimiter b) := by
  unfold isDelimiter; exact inferInstance

/-- A value with every `&`, `,` and `=` replaced by `_` (0x5f). -/
def substitute (value : GoString) : GoString :=
  value.map (fun b => if isDelimiter b then 0x5f else b)

/-- The entry of one key in the canonical string: `&key=value`, the value
substituted when the key is exactly `token`. -/
def referenceEntry (P : GoMap) (key : GoString) : GoString :=
  str "&" ++ key ++ str "=" ++
    (if key = str "token" then substitute (mapIndex P key) else mapIndex P key)

/-- The canonical string over a listing `ks` of the keys. -/
def referenceCanonical (ks : List GoString) (P : GoMap) : GoString :=
  ks.flatMap (referenceEntry P)

/-- The signature of the specification, for `ks` the keys of `P` in ascending
order: empty for the empty parameter set, else the lowercase hexadecimal MD5
digest of the canonical string followed by the secret. -/
def referenceSignature (ks : List GoString) (P : GoMap) (S : GoString) : GoString :=
  if P = [] then [] else lowerHex (md5Sum (referenceCanonical ks P ++ S))

/-- A list of strings in strictly ascending byte-wise order. -/
def Ascending (ks : List GoString) : Prop := ks.Sorted (fun a b => strLess a b = true)

instance (ks : List GoString) : Decidable (Ascending ks) := by
  unfold Ascending List.Sorted; exact inferInstance

/-- The digest a response must carry: lowercase hexadecimal MD5 of the body
followed directly by the secret. -/
def referenceDigest (B : List UInt8) (S : GoString) : GoString :=
  lowerHex (md5Sum (B ++ S))

/-- Strings joined by `&`. -/
def joinAmp : List GoString → GoString
  | [] => []
  | [x] => x
  | x :: y :: rest => x ++ str "&" ++ joinAmp (y :: rest)

/-- The query string of the wire format: the pairs `key=value` of `R` in
ascending key order, each side form-encoded, joined by `&`. -/
def referenceQuery (R : GoMap) : GoString :=
  joinAmp ((sortKeys R).map (fun k => QueryEscape k ++ str "=" ++ QueryEscape (mapIndex R k)))

/-! ## Concrete inputs -/

/-- The parameter set of `TestCreateSignature` and `TestGenerateParameters`. -/
def testParams : GoMap :=
  [(str "device_id", str "my-token"), (str "app_id", str "myappid")]

/-- The same mapping as `testParams`, inserted in the other order. -/
def testParamsSwapped : GoMap :=
  [(str "app_id", str "myappid"), (str "device_id", str "my-token")]

/-- A parameter set whose `token` value holds each of the three delimiters. -/
def tokenParamsRaw : GoMap :=
  [(str "token", str "a&b,c=d"), (str "number", str "1=2")]

/-- A response body and a secret whose MD5 digest has no letter among its
hexadecimal digits. -/
def digitsOnlyBody : List UInt8 := str "xim"

/-- The secret that goes with `digitsOnlyBody`. -/
def digitsOnlySecret : GoString := str "az"

/-- A response body as the token endpoint would send it. -/
def sampleBody : List UInt8 := str "\x7b\"result_code\":0,\"token\":\"t1\"\x7d"

/-- A caller parameter set that already carries a `sig` entry. -/
def sigParams : GoMap := [(str "sig", str "x")]

/-- The client of the test suite's first tests. -/
def testClient : Client := NewClient (str "appId") (str "secret")

/-- A token response body that reports a rejection. -/
def rejectedBody : List UInt8 :=
  str "\x7b\"result_code\":51,\"result_message\":\"Missing params\"\x7d"

/-- A search response body. -/
def searchBody : List UInt8 := str "\x7b\"result_code\":0,\"user_status\":\"unknown\"\x7d"

/-- A table-driven stand-in for `json.Unmarshal` into a `GetTokenResponse`,
defined on the bodies above. -/
def decodeToken (content : List UInt8) (obj : GetTokenResponse) :
    GetTokenResponse × Option GoError :=
  if content = sampleBody then ({ obj with ResultCode := 0, Token := str "t1" }, none)
  else if content = rejectedBody then
    ({ obj with ResultCode := 51, ResultMessage := str "Missing params" }, none)
  else (obj, some (errorsNew (str "unexpected end of JSON input")))

/-- A table-driven stand-in for `json.Unmarshal` into a `VerifySearchResponse`. -/
def decodeSearch (content : List UInt8) (obj : VerifySearchResponse) :
    VerifySearchResponse × Option GoError :=
  if content = searchBody then ({ obj with ResultCode := 0, UserStatus := str "unknown" }, none)
  else (obj, some (errorsNew (str "unexpected end of JSON input")))

/-- How the remote side behaves in a test run. -/
inductive Scenario where
  | down
  | tokenBadSignature
  | tokenRejected
  | searchBadSignature
  | allGood
  deriving DecidableEq

/-- The response signature a server holding the secret `secret` attaches. -/
def serverSignature (body : List UInt8) : GoString :=
  hexEncodeToString (md5Sum (body ++ str "secret"))

/-- The remote side: what one request is answered with. -/
def serve (sc : Scenario) (req : Request) : RoundTrip :=
  if (mapIndex endpointUrls (str "getToken") ++ str "?").isPrefixOf req.url then
    match sc with
    | Scenario.down => RoundTrip.failed (errorsNew (str "connection refused"))
    | Scenario.tokenBadSignature => RoundTrip.response sampleBody (str "00")
    | Scenario.tokenRejected => RoundTrip.response rejectedBody (serverSignature rejectedBody)
    | _ => RoundTrip.response sampleBody (serverSignature sampleBody)
  else
    match sc with
    | Scenario.searchBadSignature => RoundTrip.response searchBody (str "00")
    | _ => RoundTrip.response searchBody (serverSignature searchBody)

/-- A test environment: a fixed clock, the remote side of `serve`, and a
counter of the requests served as external state. -/
def scenarioEnv (sc : Scenario) : Env Nat where
  now := fun n => (1700000000, n)
  clientDo := fun req n => (serve sc req, n + 1)
  unmarshalToken := decodeToken
  unmarshalSearch := decodeSearch

/-- The caller's parameters of `TestVerifySearch`, with a short device id. -/
def searchParams : GoMap :=
  [(str "device_id", str "dev1"), (str "source_ip_address", str "127.0.0.1"),
   (str "number", str "+521111111111")]

/-! ## The order on strings -/

theorem strLess_asymm (a : GoString) : ∀ b : GoString, strLess a b = true → strLess b a = false := by
  induction a with
  | nil => intro b; cases b <;> simp [strLess]
  | cons x xs ih =>
    intro b
    cases b with
    | nil => simp [strLess]
    | cons y ys =>
      simp only [strLess]
      split_ifs <;> first | omega | simp | exact ih ys

theorem strLess_antisymm (a : GoString) :
    ∀ b : GoString, strLess b a = false → strLess a b = false → a = b := by
  induction a with
  | nil => intro b; cases b <;> simp [strLess]
  | cons x xs ih =>
    intro b
    cases b with
    | nil => simp [strLess]
    | cons y ys =>
      simp only [strLess]
      split_ifs with h1 h2 h3 <;> try simp
      intro hb ha
      exact ⟨UInt8.ext (by omega), ih ys hb ha⟩

theorem strLess_trans (a : GoString) :
    ∀ b c : GoString, strLess a b = true → strLess b c = true → strLess a c = true := by
  induction a with
  | nil => intro b c; cases b <;> cases c <;> simp [strLess]
  | cons x xs ih =>
    intro b c
    cases b with
    | nil => simp [strLess]
    | cons y ys =>
      cases c with
      | nil => simp [strLess]
      | cons z zs =>
        simp only [strLess]
        split_ifs <;> first | omega | simp | exact ih ys zs

theorem strLess_total (a b : GoString) : strLess a b = true ∨ a = b ∨ strLess b a = true := by
  by_cases h1 : strLess a b = true
  · exact Or.inl h1
  · by_cases h2 : strLess b a = true
    · exact Or.inr (Or.inr h2)
    · exact Or.inr (Or.inl (strLess_antisymm a b (by simpa using h2) (by simpa using h1)))

theorem strLess_irrefl (a : GoString) : strLess a a = false := by
  induction a with
  | nil => rfl
  | cons x xs ih => simp [strLess, ih]

/-- The model of Go string comparison is the lexicographic order on bytes. -/
theorem strLess_iff_lex (a b : GoString) :
    strLess a b = true ↔ List.Lex (fun x y : UInt8 => x.toNat < y.toNat) a b := by
  constructor
  · induction a generalizing b with
    | nil =>
      cases b with
      | nil => simp [strLess]
      | cons y ys => intro _; exact List.Lex.nil
    | cons x xs ih =>
      cases b with
      | nil => simp [strLess]
      | cons y ys =>
        simp only [strLess]
        split_ifs with h1 h2
        · intro _; exact List.Lex.rel h1
        · simp
        · intro h
          have hxy : x = y := UInt8.ext (by omega)
          subst hxy
          exact List.Lex.cons (ih ys h)
  · intro h
    induction h with
    | nil => simp [strLess]
    | cons _ ih => simp [strLess, ih]
    | rel h => simp [strLess, h]

theorem strLessEq_isTotal : IsTotal GoString strLessEq where
  total a b := by
    unfold strLessEq
    by_cases h : strLess b a = true
    · exact Or.inr (strLess_asymm b a h)
    · exact Or.inl (by simpa using h)

theorem strLessEq_isTrans : IsTrans GoString strLessEq where
  trans a b c hab hbc := by
    unfold strLessEq at *
    by_contra h
    have hca : strLess c a = true := by simpa using h
    rcases strLess_total b c with h1 | h1 | h1
    · have := strLess_trans b c a h1 hca
      simp [this] at hab
    · subst h1; simp [hca] at hab
    · simp [h1] at hbc

theorem strLessEq_isAntisymm : IsAntisymm GoString strLessEq where
  antisymm a b hab hba := strLess_antisymm a b hab hba

/-! ## Maps -/

theorem mapIndex_mapAssign_self (m : GoMap) (k v : GoString) :
    mapIndex (mapAssign m k v) k = v := by
  induction m with
  | nil => simp [mapAssign, mapIndex]
  | cons kv rest ih =>
    obtain ⟨k', v'⟩ := kv
    by_cases h : k' = k <;> simp [mapAssign, mapIndex, h, ih]

theorem mapIndex_mapAssign_ne (m : GoMap) (k v k' : GoString) (h : k' ≠ k) :
    mapIndex (mapAssign m k v) k' = mapIndex m k' := by
  induction m with
  | nil => simp [mapAssign, mapIndex, h.symm]
  | cons kv rest ih =>
    obtain ⟨k0, v0⟩ := kv
    by_cases h0 : k0 = k
    · subst h0; simp [mapAssign, mapIndex, h.symm]
    · by_cases h1 : k0 = k'
      · subst h1; simp [mapAssign, mapIndex, h0]
      · simp [mapAssign, mapIndex, h0, h1, ih]

theorem mapKeys_mapAssign_of_mem (m : GoMap) (k v : GoString) (h : k ∈ mapKeys m) :
    mapKeys (mapAssign m k v) = mapKeys m := by
  induction m with
  | nil => simp [mapKeys] at h
  | cons kv rest ih =>
    obtain ⟨k0, v0⟩ := kv
    by_cases h0 : k0 = k
    · simp [mapAssign, mapKeys, h0]
    · have hr : k ∈ mapKeys rest := by
        simp only [mapKeys, List.map_cons, List.mem_cons] at h
        rcases h with h | h
        · exact absurd h.symm h0
        · exact h
      have := ih hr
      simp only [mapKeys] at this
      simp [mapAssign, mapKeys, h0, this]

theorem mapAssign_of_not_mem (m : GoMap) (k v : GoString) (h : k ∉ mapKeys m) :
    mapAssign m k v = m ++ [(k, v)] := by
  induction m with
  | nil => simp [mapAssign]
  | cons kv rest ih =>
    obtain ⟨k0, v0⟩ := kv
    simp only [mapKeys, List.map_cons, List.mem_cons, not_or] at h
    have h0 : k0 ≠ k := fun e => h.1 e.symm
    simp [mapAssign, h0, ih (by simpa [mapKeys] using h.2)]

theorem mem_mapKeys_mapAssign (m : GoMap) (k v k' : GoString) :
    k' ∈ mapKeys (mapAssign m k v) ↔ k' ∈ mapKeys m ∨ k' = k := by
  by_cases h : k ∈ mapKeys m
  · rw [mapKeys_mapAssign_of_mem m k v h]
    constructor
    · exact Or.inl
    · rintro (h' | h')
      · exact h'
      · exact h' ▸ h
  · rw [mapAssign_of_not_mem m k v h]
    simp [mapKeys]

theorem wellFormed_mapAssign (m : GoMap) (k v : GoString) (h : WellFormed m) :
    WellFormed (mapAssign m k v) := by
  unfold WellFormed at *
  by_cases hk : k ∈ mapKeys m
  · rw [mapKeys_mapAssign_of_mem m k v hk]; exact h
  · rw [mapAssign_of_not_mem m k v hk]
    simp only [mapKeys, List.map_append, List.map_cons, List.map_nil]
    rw [List.nodup_append]
    refine ⟨h, by simp, ?_⟩
    intro a ha hb
    simp only [List.mem_singleton] at hb
    subst hb
    exact hk ha

theorem mapIndex_append_of_mem (m m' : GoMap) (k : GoString) (h : k ∈ mapKeys m) :
    mapIndex (m ++ m') k = mapIndex m k := by
  induction m with
  | nil => simp [mapKeys] at h
  | cons kv rest ih =>
    obtain ⟨k0, v0⟩ := kv
    by_cases h0 : k0 = k
    · simp [mapIndex, h0]
    · have hr : k ∈ mapKeys rest := by
        simp only [mapKeys, List.map_cons, List.mem_cons] at h
        rcases h with h | h
        · exact absurd h.symm h0
        · exact h
      simp [mapIndex, h0, ih hr]

theorem mapDelete_mapAssign_of_not_mem (m : GoMap) (k v : GoString) (h : k ∉ mapKeys m) :
    mapDelete (mapAssign m k v) k = m := by
  rw [mapAssign_of_not_mem m k v h]
  unfold mapDelete
  rw [List.filter_append]
  have h1 : m.filter (fun kv => decide (kv.1 ≠ k)) = m := by
    rw [List.filter_eq_self]
    intro kv hkv
    have : kv.1 ∈ mapKeys m := List.mem_map_of_mem Prod.fst hkv
    simp only [ne_eq, decide_eq_true_eq]
    intro e
    exact h (e ▸ this)
  rw [h1]
  simp

/-- The copy loop of `generateParameters` on a map with distinct keys. -/
theorem copyLoop_eq (params acc : GoMap) (h : WellFormed (acc ++ params)) :
    params.foldl (fun data kv => mapAssign data kv.1 kv.2) acc = acc ++ params := by
  induction params generalizing acc with
  | nil => simp
  | cons kv rest ih =>
    obtain ⟨k, v⟩ := kv
    have hk : k ∉ mapKeys acc := by
      unfold WellFormed at h
      simp only [mapKeys, List.map_append, List.map_cons] at h
      rw [List.nodup_append] at h
      intro hmem
      exact h.2.2 hmem (List.mem_cons_self _ _)
    simp only [List.foldl_cons]
    rw [mapAssign_of_not_mem acc k v hk, ih]
    · simp
    · simpa using h

theorem copyState_eq (params : GoMap) (st : ParamsState) :
    params.foldl (fun st kv => { st with copyParams := mapAssign st.copyParams kv.1 kv.2 }) st
      = ⟨st.params, params.foldl (fun data kv => mapAssign data kv.1 kv.2) st.copyParams⟩ := by
  induction params generalizing st with
  | nil => rfl
  | cons kv rest ih => simp only [List.foldl_cons]; rw [ih]

theorem mapIndex_perm (l₁ l₂ : GoMap) (h : l₁.Perm l₂) (nd : WellFormed l₁) (k : GoString) :
    mapIndex l₁ k = mapIndex l₂ k := by
  induction h with
  | nil => rfl
  | cons x _ ih =>
    obtain ⟨k0, v0⟩ := x
    unfold WellFormed at nd
    simp only [mapKeys, List.map_cons, List.nodup_cons] at nd
    simp only [mapIndex]
    split_ifs
    · rfl
    · exact ih nd.2
  | swap x y l =>
    obtain ⟨kx, vx⟩ := x
    obtain ⟨ky, vy⟩ := y
    unfold WellFormed at nd
    simp only [mapKeys, List.map_cons, List.nodup_cons, List.mem_cons, not_or] at nd
    simp only [mapIndex]
    split_ifs with h1 h2 <;> try rfl
    exact absurd (h1.trans h2.symm) nd.1.1
  | trans h1 _ ih1 ih2 =>
    refine (ih1 nd).trans (ih2 ?_)
    unfold WellFormed at *
    exact (List.Perm.nodup_iff (h1.map Prod.fst)).1 nd

/-! ## Sorting the keys -/

theorem keysLoop_eq (params : GoMap) (acc : List GoString) :
    params.foldl (fun keys kv => keys ++ [kv.1]) acc = acc ++ mapKeys params := by
  induction params generalizing acc with
  | nil => simp [mapKeys]
  | cons kv rest ih => simp [ih, mapKeys]

theorem sortKeys_eq (params : GoMap) : sortKeys params = sortStrings (mapKeys params) := by
  simp [sortKeys, keysLoop_eq]

theorem sortKeys_perm (params : GoMap) : (sortKeys params).Perm (mapKeys params) := by
  rw [sortKeys_eq]; exact List.perm_insertionSort _ _

theorem sortKeys_sorted (params : GoMap) : (sortKeys params).Sorted strLessEq := by
  haveI := strLessEq_isTotal
  haveI := strLessEq_isTrans
  rw [sortKeys_eq]; exact List.sorted_insertionSort _ _

theorem sortKeys_of_perm (l₁ l₂ : GoMap) (h : l₁.Perm l₂) : sortKeys l₁ = sortKeys l₂ := by
  haveI := strLessEq_isAntisymm
  refine List.eq_of_perm_of_sorted ?_ (sortKeys_sorted l₁) (sortKeys_sorted l₂)
  exact (sortKeys_perm l₁).trans (((h.map Prod.fst)).trans (sortKeys_perm l₂).symm)

theorem mem_sortKeys (params : GoMap) (k : GoString) : k ∈ sortKeys params ↔ k ∈ mapKeys params :=
  (sortKeys_perm params).mem_iff

theorem sortKeys_ascending (params : GoMap) (h : WellFormed params) : Ascending (sortKeys params) := by
  have hnd : (sortKeys params).Nodup := (List.Perm.nodup_iff (sortKeys_perm params)).2 h
  have hs := sortKeys_sorted params
  unfold Ascending List.Sorted at *
  unfold List.Nodup at hnd
  refine (hs.and hnd).imp ?_
  intro a b hab
  rcases strLess_total a b with h1 | h1 | h1
  · exact h1
  · exact absurd h1 hab.2
  · have := hab.1
    unfold strLessEq at this
    simp [h1] at this

theorem ascending_nodup (ks : List GoString) (h : Ascending ks) : ks.Nodup := by
  unfold Ascending List.Sorted at h
  unfold List.Nodup
  refine h.imp ?_
  intro a b hab e
  subst e
  simp [strLess_irrefl] at hab

theorem ascending_unique (params : GoMap) (ks : List GoString) (hP : WellFormed params)
    (hs : Ascending ks) (hmem : ∀ k, k ∈ ks ↔ k ∈ mapKeys params) : ks = sortKeys params := by
  haveI := strLessEq_isAntisymm
  have hperm : ks.Perm (sortKeys params) := by
    rw [List.perm_ext_iff_of_nodup (ascending_nodup ks hs)
      ((List.Perm.nodup_iff (sortKeys_perm params)).2 hP)]
    intro k
    rw [hmem k, mem_sortKeys]
  refine List.eq_of_perm_of_sorted hperm ?_ (sortKeys_sorted params)
  unfold Ascending List.Sorted at hs
  refine hs.imp ?_
  intro a b hab
  exact strLess_asymm a b hab

/-! ## The canonical string -/

theorem str_delims : str "&,=" = [0x26, 0x2c, 0x3d] := by decide

theorem str_underscore : str "_" = [0x5f] := by decide

theorem tokenReplaceRegexp_iff (b : UInt8) : tokenReplaceRegexp b = true ↔ isDelimiter b := by
  unfold tokenReplaceRegexp isDelimiter
  rw [str_delims]
  simp only [List.contains, List.elem]
  by_cases h1 : b = 0x26
  · simp [h1]
  · by_cases h2 : b = 0x2c
    · simp [h2]
    · by_cases h3 : b = 0x3d
      · simp [h3]
      · have e1 : (b == 0x26) = false := by simpa using h1
        have e2 : (b == 0x2c) = false := by simpa using h2
        have e3 : (b == 0x3d) = false := by simpa using h3
        simp [h1, h2, h3, e1, e2, e3]

theorem replaceAllString_eq (value : GoString) :
    ReplaceAllString value (str "_") = substitute value := by
  induction value with
  | nil => rfl
  | cons b rest ih =>
    unfold ReplaceAllString substitute at *
    rw [List.flatMap_cons, ih, str_underscore]
    by_cases h : isDelimiter b
    · simp [(tokenReplaceRegexp_iff b).2 h, h]
    · have : tokenReplaceRegexp b = false := by
        simpa using fun e => h ((tokenReplaceRegexp_iff b).1 e)
      simp [this, h]

theorem signatureStep_eq (params : GoMap) (queryString key : GoString) :
    signatureStep params queryString key = queryString ++ referenceEntry params key := by
  unfold signatureStep referenceEntry
  simp only [replaceAllString_eq]
  split_ifs <;> simp [List.append_assoc]

theorem signatureLoop_eq (params : GoMap) (ks : List GoString) (acc : GoString) :
    ks.foldl (signatureStep params) acc = acc ++ referenceCanonical ks params := by
  induction ks generalizing acc with
  | nil => simp [referenceCanonical]
  | cons k rest ih =>
    simp only [List.foldl_cons, ih, signatureStep_eq, referenceCanonical, List.flatMap_cons,
      List.append_assoc]

theorem canonicalString_eq (params : GoMap) :
    canonicalString params = referenceCanonical (sortKeys params) params := by
  simp [canonicalString, signatureLoop_eq]

theorem str_amp : str "&" = [0x26] := by decide

theorem referenceEntry_ne_nil (params : GoMap) (key : GoString) : referenceEntry params key ≠ [] := by
  unfold referenceEntry
  rw [str_amp]
  simp

theorem referenceCanonical_eq_nil (ks : List GoString) (params : GoMap) :
    referenceCanonical ks params = [] ↔ ks = [] := by
  cases ks with
  | nil => simp [referenceCanonical]
  | cons k rest =>
    simp [referenceCanonical, List.flatMap_cons, referenceEntry_ne_nil]

theorem sortKeys_eq_nil (params : GoMap) : sortKeys params = [] ↔ params = [] := by
  constructor
  · intro h
    have hp := sortKeys_perm params
    rw [h] at hp
    have := hp.symm.eq_nil
    simpa [mapKeys] using this
  · intro h; subst h; rfl

theorem canonicalString_length (params : GoMap) :
    (canonicalString params).length = 0 ↔ params = [] := by
  rw [List.length_eq_zero, canonicalString_eq, referenceCanonical_eq_nil, sortKeys_eq_nil]

/-! ## Hexadecimal rendering -/

theorem hextable_getD : ∀ n, n < 16 → hextable.getD n 0 = lowerHexDigit n := by decide

theorem hexEncodeToString_eq (bytes : List UInt8) : hexEncodeToString bytes = lowerHex bytes := by
  induction bytes with
  | nil => rfl
  | cons b rest ih =>
    have hb : b.toNat < 256 := by simpa using UInt8.toNat_lt b
    simp only [hexEncodeToString, lowerHex, List.flatMap_cons] at *
    rw [ih, hextable_getD _ (by omega), hextable_getD _ (by omega)]
    simp

theorem bytesLE_length (n x : Nat) : (bytesLE n x).length = n := by
  induction n generalizing x with
  | zero => rfl
  | succ n ih => simp [bytesLE, ih]

theorem md5Sum_length (msg : List UInt8) : (md5Sum msg).length = 16 := by
  simp [md5Sum, bytesLE_length]

theorem lowerHex_length (bytes : List UInt8) : (lowerHex bytes).length = 2 * bytes.length := by
  induction bytes with
  | nil => rfl
  | cons b rest ih =>
    simp only [lowerHex, List.flatMap_cons] at *
    simp [ih]; omega

theorem referenceDigest_length (B : List UInt8) (S : GoString) :
    (referenceDigest B S).length = 32 := by
  simp [referenceDigest, lowerHex_length, md5Sum_length]

/-- The MD5 model on the test suite of RFC 1321 (appendix A.5): the empty
string, `a`, `abc`, `message digest`, and an 80-byte message that spans two
blocks. -/
theorem md5Sum_rfc1321 :
    lowerHex (md5Sum (str "")) = str "d41d8cd98f00b204e9800998ecf8427e" ∧
    lowerHex (md5Sum (str "a")) = str "0cc175b9c0f1b6a831c399e269772661" ∧
    lowerHex (md5Sum (str "abc")) = str "900150983cd24fb0d6963f7d28e17f72" ∧
    lowerHex (md5Sum (str "message digest")) = str "f96b697d7cb7938d525a2f31aaf161d0" ∧
    lowerHex (md5Sum (str
      "12345678901234567890123456789012345678901234567890123456789012345678901234567890"))
      = str "57edf4a22be3c955ac49da2e2107b67a" := by
  decide

/-! ## C1 : `createSignature` against the reference definition -/

theorem createSignature_eq_sortKeys (P : GoMap) (S : GoString) :
    createSignature P S = referenceSignature (sortKeys P) P S := by
  unfold createSignature referenceSignature
  simp only [canonicalString_length]
  split_ifs
  · rfl
  · rw [hexEncodeToString_eq, canonicalString_eq]

/-- C1: for a parameter set `P` with unique keys and any secret `S`,
`createSignature P S` is the reference signature: empty when `P` is empty, else
the lowercase hexadecimal MD5 digest of the canonical string followed by `S`,
the canonical string running over the keys of `P` in strictly ascending
byte-wise order (`sortKeys P` is that listing, and it is the only one). -/
theorem createSignature_eq_reference (P : GoMap) (S : GoString) (hP : WellFormed P) :
    (Ascending (sortKeys P) ∧ ∀ k, k ∈ sortKeys P ↔ k ∈ mapKeys P) ∧
    ∀ ks : List GoString, Ascending ks → (∀ k, k ∈ ks ↔ k ∈ mapKeys P) →
      createSignature P S = referenceSignature ks P S := by
  refine ⟨⟨sortKeys_ascending P hP, mem_sortKeys P⟩, ?_⟩
  intro ks hs hmem
  rw [ascending_unique P ks hP hs hmem]
  exact createSignature_eq_sortKeys P S

/-- C1 at the parameter set of `TestCreateSignature`: the signature is the
MD5 digest of `&app_id=myappid&device_id=my-tokensecret` in lowercase hex. -/
theorem createSignature_eq_reference_witness :
    WellFormed testParams ∧
    createSignature testParams (str "secret")
      = lowerHex (md5Sum (str "&app_id=myappid&device_id=my-tokensecret")) :=
  ⟨by decide,
   ((createSignature_eq_reference testParams (str "secret") (by decide)).2
      [str "app_id", str "device_id"] (by decide)
      (by intro k; simp [mapKeys, testParams, or_comm])).trans (by decide)⟩

/-! ## C9 : independence of the enumeration order -/

theorem referenceEntry_perm (l₁ l₂ : GoMap) (h : l₁.Perm l₂) (nd : WellFormed l₁) (k : GoString) :
    referenceEntry l₁ k = referenceEntry l₂ k := by
  unfold referenceEntry
  rw [mapIndex_perm l₁ l₂ h nd k]

theorem canonicalString_perm (l₁ l₂ : GoMap) (h : l₁.Perm l₂) (nd : WellFormed l₁) :
    canonicalString l₁ = canonicalString l₂ := by
  rw [canonicalString_eq, canonicalString_eq, sortKeys_of_perm l₁ l₂ h]
  unfold referenceCanonical
  congr 1
  funext k
  exact referenceEntry_perm l₁ l₂ h nd k

/-- C9: for two listings of the same mapping (pairwise distinct keys, one a
permutation of the other) and any secret, `createSignature` returns the same
signature, and `sortKeys` returns the same strictly ascending, duplicate-free
key list for both. -/
theorem createSignature_perm (S : GoString) (L1 L2 : GoMap) (hnd : WellFormed L1)
    (hperm : L1.Perm L2) :
    createSignature L1 S = createSignature L2 S ∧
    sortKeys L1 = sortKeys L2 ∧
    Ascending (sortKeys L1) ∧ (sortKeys L1).Nodup ∧
    (∀ k, k ∈ sortKeys L1 ↔ k ∈ mapKeys L2) := by
  refine ⟨?_, sortKeys_of_perm L1 L2 hperm, sortKeys_ascending L1 hnd,
    ascending_nodup _ (sortKeys_ascending L1 hnd), ?_⟩
  · unfold createSignature
    rw [canonicalString_perm L1 L2 hperm hnd]
  · intro k
    rw [sortKeys_of_perm L1 L2 hperm]
    exact mem_sortKeys L2 k

/-- C9 at the two insertion orders of the test parameter set. -/
theorem createSignature_perm_witness :
    createSignature testParams (str "secret") = createSignature testParamsSwapped (str "secret") ∧
    sortKeys testParams = [str "app_id", str "device_id"] :=
  ⟨(createSignature_perm (str "secret") testParams testParamsSwapped (by decide)
      (List.Perm.swap _ _ _)).1, by decide⟩

/-! ## C10 : the substitution of the `token` value -/

theorem substitute_idem (value : GoString) : substitute (substitute value) = substitute value := by
  unfold substitute
  rw [List.map_map]
  apply List.map_congr_left
  intro b _
  by_cases h : isDelimiter b
  · have h5 : ¬ isDelimiter (0x5f : UInt8) := by decide
    simp [h, h5]
  · simp [h]

theorem substitute_length (value : GoString) : (substitute value).length = value.length := by
  simp [substitute]

theorem substitute_ne (value : GoString) (h : ∃ b ∈ value, isDelimiter b) :
    substitute value ≠ value := by
  induction value with
  | nil => simp at h
  | cons b rest ih =>
    intro e
    simp only [substitute, List.map_cons, List.cons.injEq] at e
    obtain ⟨c, hc, hd⟩ := h
    rcases List.mem_cons.1 hc with hcb | hcr
    · subst hcb
      rw [if_pos hd] at e
      have : ¬ isDelimiter (0x5f : UInt8) := by decide
      exact this (e.1 ▸ hd)
    · exact ih ⟨c, hcr, hd⟩ e.2

theorem flatMap_ne_of_entry_ne {α β : Type} (ks : List α) (f g : α → List β)
    (hlen : ∀ k, (f k).length = (g k).length) (k : α) (hk : k ∈ ks) (hne : f k ≠ g k) :
    ks.flatMap f ≠ ks.flatMap g := by
  induction ks with
  | nil => simp at hk
  | cons k0 rest ih =>
    intro e
    rw [List.flatMap_cons, List.flatMap_cons] at e
    have hsplit := List.append_inj e (hlen k0)
    rcases List.mem_cons.1 hk with h0 | hr
    · subst h0; exact hne hsplit.1
    · exact ih hr hsplit.2

theorem sortKeys_mapAssign_of_mem (P : GoMap) (k v : GoString) (h : k ∈ mapKeys P) :
    sortKeys (mapAssign P k v) = sortKeys P := by
  rw [sortKeys_eq, sortKeys_eq, mapKeys_mapAssign_of_mem P k v h]

/-- C10: (1) when `P` has a `token` key, replacing its value by the
substituted value leaves the signature unchanged; (2) for a key of `P` other
than `token`, the entry `&key=value` stands in the canonical string with the
value unmodified, and pre-replacing a value that holds `&`, `,` or `=` changes
the canonical string. -/
theorem token_substitution (P : GoMap) (S : GoString) :
    (str "token" ∈ mapKeys P →
      createSignature P S
        = createSignature (mapAssign P (str "token") (substitute (mapIndex P (str "token")))) S) ∧
    (∀ k, k ≠ str "token" → k ∈ mapKeys P →
      (∃ pre post, canonicalString P
          = pre ++ (str "&" ++ k ++ str "=" ++ mapIndex P k) ++ post) ∧
      ((∃ b ∈ mapIndex P k, isDelimiter b) →
        canonicalString P ≠ canonicalString (mapAssign P k (substitute (mapIndex P k))))) := by
  constructor
  · intro htok
    unfold createSignature
    have hc : canonicalString (mapAssign P (str "token") (substitute (mapIndex P (str "token"))))
        = canonicalString P := by
      rw [canonicalString_eq, canonicalString_eq, sortKeys_mapAssign_of_mem P _ _ htok]
      unfold referenceCanonical
      congr 1
      funext k
      unfold referenceEntry
      by_cases hk : k = str "token"
      · subst hk
        simp [mapIndex_mapAssign_self, substitute_idem]
      · simp [hk, mapIndex_mapAssign_ne P _ _ k hk]
    rw [hc]
  · intro k hk hmem
    constructor
    · have hks : k ∈ sortKeys P := (mem_sortKeys P k).2 hmem
      obtain ⟨l1, l2, hl⟩ := List.append_of_mem hks
      refine ⟨referenceCanonical l1 P, referenceCanonical l2 P, ?_⟩
      rw [canonicalString_eq, hl]
      simp [referenceCanonical, List.flatMap_append, List.flatMap_cons, referenceEntry, hk]
    · intro hd
      rw [canonicalString_eq, canonicalString_eq, sortKeys_mapAssign_of_mem P _ _ hmem]
      unfold referenceCanonical
      refine flatMap_ne_of_entry_ne (sortKeys P) _ _ ?_ k ((mem_sortKeys P k).2 hmem) ?_
      · intro k'
        unfold referenceEntry
        by_cases hkk : k' = k
        · subst hkk
          simp [hk, mapIndex_mapAssign_self, substitute_length]
        · simp [mapIndex_mapAssign_ne P _ _ k' hkk]
      · unfold referenceEntry
        simp only [hk, if_false, mapIndex_mapAssign_self]
        intro e
        exact substitute_ne _ hd (List.append_cancel_left e).symm

/-- C10 on a parameter set whose `token` value is `a&b,c=d` and whose
`number` value is `1=2`. -/
theorem token_substitution_witness :
    createSignature tokenParamsRaw (str "s")
      = createSignature [(str "token", str "a_b_c_d"), (str "number", str "1=2")] (str "s") ∧
    canonicalString tokenParamsRaw = str "&number=1=2&token=a_b_c_d" ∧
    canonicalString tokenParamsRaw
      ≠ canonicalString (mapAssign tokenParamsRaw (str "number")
          (substitute (mapIndex tokenParamsRaw (str "number")))) :=
  ⟨((token_substitution tokenParamsRaw (str "s")).1 (by decide)).trans (by decide),
   by decide,
   ((token_substitution tokenParamsRaw (str "s")).2 (str "number") (by decide) (by decide)).2
     ⟨0x3d, by decide, by decide⟩⟩

/-! ## C2 : `validateResponseSignature` -/

theorem upperHex_length (bytes : List UInt8) : (upperHex bytes).length = 2 * bytes.length := by
  induction bytes with
  | nil => rfl
  | cons b rest ih =>
    simp only [upperHex, List.flatMap_cons] at *
    simp [ih]; omega

theorem validateResponseSignature_missing (B : List UInt8) (S : GoString) :
    validateResponseSignature B [] S = some (errorsNew (str "Missing Response Signature")) := by
  simp [validateResponseSignature]

theorem validateResponseSignature_nonempty (B : List UInt8) (H S : GoString) (hH : H ≠ []) :
    validateResponseSignature B H S
      = if referenceDigest B S ≠ H then some (errorsNew (str "Invalid Response Signature"))
        else none := by
  have hlen : H.length ≠ 0 := fun e => hH (List.length_eq_zero.1 e)
  simp only [validateResponseSignature, hlen, if_false, hexEncodeToString_eq, referenceDigest]

theorem referenceDigest_ne_nil (B : List UInt8) (S : GoString) : referenceDigest B S ≠ [] := by
  intro e
  have := referenceDigest_length B S
  rw [e] at this
  simp at this

/-- C2 (as amended): `validateResponseSignature B H S` returns the error
`Missing Response Signature` when `H` is empty; the error
`Invalid Response Signature` when `H` is non-empty and is not the lowercase
hexadecimal MD5 digest of `B` followed by `S`; and no error exactly when `H` is
that digest. It succeeds on the digest itself, and it rejects the upper-case
rendering of the digest whenever that rendering differs from the digest. -/
theorem validateResponseSignature_spec (B : List UInt8) (H S : GoString) :
    (H = [] →
      validateResponseSignature B H S = some (errorsNew (str "Missing Response Signature"))) ∧
    (H ≠ [] → H ≠ referenceDigest B S →
      validateResponseSignature B H S = some (errorsNew (str "Invalid Response Signature"))) ∧
    (validateResponseSignature B H S = none ↔ H = referenceDigest B S) ∧
    validateResponseSignature B (referenceDigest B S) S = none ∧
    (upperHex (md5Sum (B ++ S)) ≠ referenceDigest B S →
      validateResponseSignature B (upperHex (md5Sum (B ++ S))) S
        = some (errorsNew (str "Invalid Response Signature"))) := by
  refine ⟨?_, ?_, ?_, ?_, ?_⟩
  · intro h; subst h; exact validateResponseSignature_missing B S
  · intro hH hne
    rw [validateResponseSignature_nonempty B H S hH, if_pos (Ne.symm hne)]
  · constructor
    · intro h
      by_cases hH : H = []
      · subst hH; rw [validateResponseSignature_missing] at h; simp at h
      · rw [validateResponseSignature_nonempty B H S hH] at h
        by_contra hne
        rw [if_pos (Ne.symm hne)] at h
        simp at h
    · intro h
      subst h
      rw [validateResponseSignature_nonempty B _ S (referenceDigest_ne_nil B S)]
      simp
  · rw [validateResponseSignature_nonempty B _ S (referenceDigest_ne_nil B S)]
    simp
  · intro hne
    have hH : upperHex (md5Sum (B ++ S)) ≠ [] := by
      intro e
      have := upperHex_length (md5Sum (B ++ S))
      rw [e, md5Sum_length] at this
      simp at this
    rw [validateResponseSignature_nonempty B _ S hH, if_pos (Ne.symm hne)]

/-- C2 (as amended) on a sample body: the upper-case rendering of its digest
differs from the digest and is rejected. -/
theorem validateResponseSignature_spec_witness :
    upperHex (md5Sum (sampleBody ++ str "secret")) ≠ referenceDigest sampleBody (str "secret") ∧
    validateResponseSignature sampleBody (upperHex (md5Sum (sampleBody ++ str "secret")))
        (str "secret")
      = some (errorsNew (str "Invalid Response Signature")) :=
  ⟨by decide,
   (validateResponseSignature_spec sampleBody [] (str "secret")).2.2.2.2 (by decide)⟩

/-- C2 as stated fails: the MD5 digest of `xim` followed by the secret `az`
is `61529519452809720693702583126814`, which has no letter, so its upper-case
rendering is the digest itself and is accepted, not rejected. -/
theorem validateResponseSignature_upper_accepted :
    referenceDigest digitsOnlyBody digitsOnlySecret = str "61529519452809720693702583126814" ∧
    upperHex (md5Sum (digitsOnlyBody ++ digitsOnlySecret))
      = str "61529519452809720693702583126814" ∧
    validateResponseSignature digitsOnlyBody
      (upperHex (md5Sum (digitsOnlyBody ++ digitsOnlySecret))) digitsOnlySecret = none := by
  decide

/-! ## `generateParameters` -/

theorem mem_mapKeys_copyLoop (params acc : GoMap) (k : GoString) :
    k ∈ mapKeys (params.foldl (fun data kv => mapAssign data kv.1 kv.2) acc)
      ↔ k ∈ mapKeys acc ∨ k ∈ mapKeys params := by
  induction params generalizing acc with
  | nil => simp [mapKeys]
  | cons kv rest ih =>
    simp only [List.foldl_cons]
    rw [ih, mem_mapKeys_mapAssign]
    simp only [mapKeys, List.map_cons, List.mem_cons]
    tauto

/-- The map `copyParams` as it stands when `generateParameters` returns. -/
theorem generateParameters_eq (P : GoMap) (A S : GoString) (now : Int) :
    generateParameters P A S now
      = ⟨P, mapAssign
          (mapAssign
            (mapAssign (P.foldl (fun data kv => mapAssign data kv.1 kv.2) []) (str "app_id") A)
            (str "timestamp") (itoa now))
          (str "sig")
          (createSignature
            (mapAssign
              (mapAssign (P.foldl (fun data kv => mapAssign data kv.1 kv.2) []) (str "app_id") A)
              (str "timestamp") (itoa now)) S)⟩ := by
  simp [generateParameters, copyState_eq]

theorem mapKeys_mapDelete (m : GoMap) (k k' : GoString) :
    k' ∈ mapKeys (mapDelete m k) ↔ k' ∈ mapKeys m ∧ k' ≠ k := by
  simp only [mapKeys, mapDelete, List.mem_map, List.mem_filter, decide_eq_true_eq]
  constructor
  · rintro ⟨kv, ⟨hm, hne⟩, rfl⟩
    exact ⟨⟨kv, hm, rfl⟩, hne⟩
  · rintro ⟨⟨kv, hm, rfl⟩, hne⟩
    exact ⟨kv, ⟨hm, hne⟩, rfl⟩

theorem generateParameters_mem_keys (P : GoMap) (A S : GoString) (now : Int) (k : GoString) :
    k ∈ mapKeys (generateParameters P A S now).copyParams
      ↔ k ∈ mapKeys P ∨ k = str "app_id" ∨ k = str "timestamp" ∨ k = str "sig" := by
  rw [generateParameters_eq]
  simp only
  rw [mem_mapKeys_mapAssign, mem_mapKeys_mapAssign, mem_mapKeys_mapAssign, mem_mapKeys_copyLoop]
  simp only [mapKeys, List.map_nil, List.not_mem_nil, false_or]
  tauto

theorem generateParameters_index_of_ne (P : GoMap) (A S : GoString) (now : Int) (hP : WellFormed P)
    (k : GoString) (h1 : k ≠ str "app_id") (h2 : k ≠ str "timestamp") (h3 : k ≠ str "sig") :
    mapIndex (generateParameters P A S now).copyParams k = mapIndex P k := by
  rw [generateParameters_eq]
  simp only
  have hcopy : P.foldl (fun data kv => mapAssign data kv.1 kv.2) [] = P := by
    simpa using copyLoop_eq P [] (by simpa using hP)
  rw [hcopy, mapIndex_mapAssign_ne _ _ _ _ h3, mapIndex_mapAssign_ne _ _ _ _ h2,
    mapIndex_mapAssign_ne _ _ _ _ h1]

/-- C6 (as amended): when the caller's parameter set has no `sig` key, the
returned map `R` satisfies `R["sig"] = createSignature(R without sig, S)`: the
hashed canonical string runs over the other transmitted fields and has no
entry for `sig`, and the transmitted timestamp is the one that was hashed. -/
theorem generateParameters_sig (P : GoMap) (A S : GoString) (now : Int)
    (hsig : str "sig" ∉ mapKeys P) :
    mapIndex (generateParameters P A S now).copyParams (str "sig")
      = createSignature (mapDelete (generateParameters P A S now).copyParams (str "sig")) S ∧
    str "sig" ∉ sortKeys (mapDelete (generateParameters P A S now).copyParams (str "sig")) ∧
    mapIndex (mapDelete (generateParameters P A S now).copyParams (str "sig")) (str "timestamp")
      = itoa now ∧
    mapIndex (generateParameters P A S now).copyParams (str "timestamp") = itoa now := by
  rw [generateParameters_eq]
  simp only
  have hnot : str "sig" ∉ mapKeys
      (mapAssign
        (mapAssign (P.foldl (fun data kv => mapAssign data kv.1 kv.2) []) (str "app_id") A)
        (str "timestamp") (itoa now)) := by
    intro hmem
    rw [mem_mapKeys_mapAssign, mem_mapKeys_mapAssign, mem_mapKeys_copyLoop] at hmem
    rcases hmem with ((h | h) | h) | h
    · simp [mapKeys] at h
    · exact hsig h
    · exact absurd h (by decide)
    · exact absurd h (by decide)
  rw [mapDelete_mapAssign_of_not_mem _ _ _ hnot, mapIndex_mapAssign_self]
  refine ⟨rfl, ?_, mapIndex_mapAssign_self _ _ _, ?_⟩
  · rw [mem_sortKeys]; exact hnot
  · rw [mapIndex_mapAssign_ne _ _ _ _ (by decide), mapIndex_mapAssign_self]

/-- C6 (as amended) at the test parameter set. -/
theorem generateParameters_sig_witness :
    mapIndex (generateParameters testParams (str "appId") (str "secret") 1700000000).copyParams
        (str "sig")
      = lowerHex (md5Sum
          (str "&app_id=appId&device_id=my-token&timestamp=1700000000" ++ str "secret")) :=
  ((generateParameters_sig testParams (str "appId") (str "secret") 1700000000
      (by decide)).1).trans (by decide)

/-- C6 as stated fails when the caller's map already has a `sig` key: the
caller's `sig` value is part of the string that is hashed, so the returned
`sig` is not the signature of the other transmitted fields. -/
theorem generateParameters_sig_hashed :
    mapIndex (generateParameters sigParams (str "a") (str "s") 0).copyParams (str "sig")
      = lowerHex (md5Sum (str "&app_id=a&sig=x&timestamp=0" ++ str "s")) ∧
    createSignature
        (mapDelete (generateParameters sigParams (str "a") (str "s") 0).copyParams (str "sig"))
        (str "s")
      = lowerHex (md5Sum (str "&app_id=a&timestamp=0" ++ str "s")) ∧
    mapIndex (generateParameters sigParams (str "a") (str "s") 0).copyParams (str "sig")
      ≠ createSignature
          (mapDelete (generateParameters sigParams (str "a") (str "s") 0).copyParams (str "sig"))
          (str "s") := by
  decide

/-- C7: `generateParameters` leaves the caller's map as it was; the returned
map `R` has the keys of `P` together with `app_id`, `timestamp` and `sig`;
`R["app_id"]` is the client's application id whatever `P` holds; and every
other key of `P` keeps its value, the `token` value included. -/
theorem generateParameters_frame (P : GoMap) (A S : GoString) (now : Int) (hP : WellFormed P) :
    (generateParameters P A S now).params = P ∧
    (∀ k, k ∈ mapKeys (generateParameters P A S now).copyParams
        ↔ k ∈ mapKeys P ∨ k = str "app_id" ∨ k = str "timestamp" ∨ k = str "sig") ∧
    mapIndex (generateParameters P A S now).copyParams (str "app_id") = A ∧
    (∀ k, k ∈ mapKeys P → k ≠ str "app_id" → k ≠ str "timestamp" → k ≠ str "sig" →
        mapIndex (generateParameters P A S now).copyParams k = mapIndex P k) ∧
    (str "token" ∈ mapKeys P →
        mapIndex (generateParameters P A S now).copyParams (str "token")
          = mapIndex P (str "token")) ∧
    WellFormed (generateParameters P A S now).copyParams := by
  refine ⟨?_, generateParameters_mem_keys P A S now, ?_,
    fun k _ => generateParameters_index_of_ne P A S now hP k,
    fun _ => generateParameters_index_of_ne P A S now hP _ (by decide) (by decide) (by decide),
    ?_⟩
  · rw [generateParameters_eq]
  · rw [generateParameters_eq]
    simp only
    rw [mapIndex_mapAssign_ne _ _ _ _ (by decide), mapIndex_mapAssign_ne _ _ _ _ (by decide),
      mapIndex_mapAssign_self]
  · rw [generateParameters_eq]
    simp only
    have hcopy : P.foldl (fun data kv => mapAssign data kv.1 kv.2) [] = P := by
      simpa using copyLoop_eq P [] (by simpa using hP)
    rw [hcopy]
    exact wellFormed_mapAssign _ _ _ (wellFormed_mapAssign _ _ _ (wellFormed_mapAssign _ _ _ hP))

/-- C7 at the input of `TestGenerateParameters`: the returned `app_id` is the
client's, the caller's map keeps its own, and the two maps differ. -/
theorem generateParameters_frame_witness :
    mapIndex (generateParameters testParams (str "appId") (str "secret") 1700000000).copyParams
        (str "app_id") = str "appId" ∧
    (generateParameters testParams (str "appId") (str "secret") 1700000000).params = testParams ∧
    mapIndex testParams (str "app_id") = str "myappid" ∧
    (generateParameters testParams (str "appId") (str "secret") 1700000000).copyParams
      ≠ testParams :=
  ⟨(generateParameters_frame testParams (str "appId") (str "secret") 1700000000 (by decide)).2.2.1,
   (generateParameters_frame testParams (str "appId") (str "secret") 1700000000 (by decide)).1,
   by decide, by decide⟩

/-! ## The two calls -/

theorem generateRequest_eq {σ : Type} (env : Env σ) (self : Client) (P : GoMap) (url : GoString)
    (w : World σ) :
    generateRequest env self P url w
      = (((generateRequest env self P url w).1.1, none),
          ⟨(env.now w.ext).2, w.trace⟩) := by
  simp [generateRequest]

theorem generateRequest_url {σ : Type} (env : Env σ) (self : Client) (P : GoMap) (url : GoString)
    (w : World σ) :
    (generateRequest env self P url w).1.1.url
      = url ++ str "?" ++ mapToQueryString
          (generateParameters P self.appId self.sharedSecret (env.now w.ext).1).copyParams := by
  simp [generateRequest, Request.headerAdd]

theorem GetToken_of_failed {σ : Type} (env : Env σ) (self : Client) (P : GoMap) (w : World σ)
    (err : GoError) (s : σ)
    (h : env.clientDo (generateRequest env self P (mapIndex endpointUrls (str "getToken")) w).1.1
          (env.now w.ext).2 = (RoundTrip.failed err, s)) :
    GetToken env self P w
      = ((GetTokenResponse.zero, some err),
          ⟨s, w.trace ++ [Event.clientDo
            (generateRequest env self P (mapIndex endpointUrls (str "getToken")) w).1.1]⟩) := by
  unfold GetToken
  rw [generateRequest_eq]
  simp only [httpDo, h]

theorem GetToken_of_response {σ : Type} (env : Env σ) (self : Client) (P : GoMap) (w : World σ)
    (B : List UInt8) (H : GoString) (s : σ)
    (h : env.clientDo (generateRequest env self P (mapIndex endpointUrls (str "getToken")) w).1.1
          (env.now w.ext).2 = (RoundTrip.response B H, s)) :
    GetToken env self P w
      = match validateResponseSignature B H self.sharedSecret with
        | some err =>
          ((GetTokenResponse.zero, some err),
            ⟨s, w.trace ++ [Event.clientDo
              (generateRequest env self P (mapIndex endpointUrls (str "getToken")) w).1.1]⟩)
        | none =>
          (env.unmarshalToken B GetTokenResponse.zero,
            ⟨s, w.trace ++ [Event.clientDo
              (generateRequest env self P (mapIndex endpointUrls (str "getToken")) w).1.1]
              ++ [Event.unmarshal B]⟩) := by
  unfold GetToken
  rw [generateRequest_eq]
  simp only [httpDo, h]
  cases hv : validateResponseSignature B H self.sharedSecret with
  | some err => rfl
  | none =>
    simp only
    rcases hd : env.unmarshalToken B GetTokenResponse.zero with ⟨obj, _ | e⟩ <;> rfl

/-! ## Counting requests -/

theorem requestsTo_append (url : GoString) (t₁ t₂ : List Event) :
    requestsTo url (t₁ ++ t₂) = requestsTo url t₁ + requestsTo url t₂ := by
  simp [requestsTo, List.filter_append]

theorem requestCount_append (t₁ t₂ : List Event) :
    requestCount (t₁ ++ t₂) = requestCount t₁ + requestCount t₂ := by
  simp [requestCount, List.filter_append]

theorem requestsTo_unmarshals (url : GoString) (rest : List Event)
    (hrest : ∀ ev ∈ rest, ∃ c, ev = Event.unmarshal c) : requestsTo url rest = 0 := by
  simp only [requestsTo, List.length_eq_zero, List.filter_eq_nil_iff]
  intro ev hev
  obtain ⟨c, rfl⟩ := hrest ev hev
  simp

theorem requestCount_unmarshals (rest : List Event)
    (hrest : ∀ ev ∈ rest, ∃ c, ev = Event.unmarshal c) : requestCount rest = 0 := by
  simp only [requestCount, List.length_eq_zero, List.filter_eq_nil_iff]
  intro ev hev
  obtain ⟨c, rfl⟩ := hrest ev hev
  simp

theorem isPrefixOf_diverge (p s t : List UInt8) (x y : UInt8) (h : x ≠ y) :
    (p ++ x :: s).isPrefixOf (p ++ y :: t) = false := by
  induction p with
  | nil => simp [List.isPrefixOf, h]
  | cons a rest ih => simp [List.isPrefixOf, ih]

theorem isPrefixOf_self_append (p q : List UInt8) : p.isPrefixOf (p ++ q) = true := by
  induction p with
  | nil => simp [List.isPrefixOf]
  | cons a rest ih => simp [List.isPrefixOf, ih]

theorem searchUrl_not_prefix_of_tokenUrl (q : GoString) :
    (mapIndex endpointUrls (str "verifySearch") ++ str "?").isPrefixOf
      (mapIndex endpointUrls (str "getToken") ++ str "?" ++ q) = false := by
  have h1 : mapIndex endpointUrls (str "verifySearch") ++ str "?"
      = str "https://api.nexmo.com/sdk/" ++ 0x76 :: str "erify/search/json?" := by decide
  have h2 : mapIndex endpointUrls (str "getToken") ++ str "?"
      = str "https://api.nexmo.com/sdk/" ++ 0x74 :: str "oken/json?" := by decide
  rw [h1, h2, List.append_assoc, List.cons_append]
  exact isPrefixOf_diverge _ _ _ _ _ (by decide)

/-- What `GetToken` adds to the trace: one request, to the token endpoint,
then at most the decoding of the body. -/
theorem GetToken_trace {σ : Type} (env : Env σ) (self : Client) (P : GoMap) (w : World σ) :
    ∃ rest, (GetToken env self P w).2.trace
        = w.trace ++ Event.clientDo
            (generateRequest env self P (mapIndex endpointUrls (str "getToken")) w).1.1 :: rest ∧
      (∀ ev ∈ rest, ∃ c, ev = Event.unmarshal c) := by
  rcases hdo : env.clientDo
      (generateRequest env self P (mapIndex endpointUrls (str "getToken")) w).1.1
      (env.now w.ext).2 with ⟨_ | ⟨B, H⟩, s⟩
  · rw [GetToken_of_failed env self P w _ s hdo]
    exact ⟨[], rfl, by simp⟩
  · rw [GetToken_of_response env self P w B H s hdo]
    cases validateResponseSignature B H self.sharedSecret with
    | some err => exact ⟨[], rfl, by simp⟩
    | none => exact ⟨[Event.unmarshal B], by simp, by simp⟩

theorem GetToken_requests {σ : Type} (env : Env σ) (self : Client) (P : GoMap) (w : World σ) :
    requestsTo (mapIndex endpointUrls (str "verifySearch")) (GetToken env self P w).2.trace
      = requestsTo (mapIndex endpointUrls (str "verifySearch")) w.trace ∧
    requestsTo (mapIndex endpointUrls (str "getToken")) (GetToken env self P w).2.trace
      = requestsTo (mapIndex endpointUrls (str "getToken")) w.trace + 1 ∧
    requestCount (GetToken env self P w).2.trace = requestCount w.trace + 1 := by
  obtain ⟨rest, htrace, hrest⟩ := GetToken_trace env self P w
  rw [htrace]
  refine ⟨?_, ?_, ?_⟩
  · rw [requestsTo_append, ← List.singleton_append, requestsTo_append,
      requestsTo_unmarshals _ rest hrest]
    have hp := searchUrl_not_prefix_of_tokenUrl (mapToQueryString
      (generateParameters P self.appId self.sharedSecret (env.now w.ext).1).copyParams)
    rw [List.append_assoc] at hp
    simp [requestsTo, generateRequest_url, hp]
  · rw [requestsTo_append, ← List.singleton_append, requestsTo_append,
      requestsTo_unmarshals _ rest hrest]
    simp [requestsTo, generateRequest_url, isPrefixOf_self_append, List.append_assoc]
  · rw [requestCount_append, ← List.singleton_append, requestCount_append,
      requestCount_unmarshals rest hrest]
    simp [requestCount]

/-! ## The paths through `VerifySearch` -/

theorem VerifySearch_of_token_error {σ : Type} (env : Env σ) (self : Client) (P : MapValue)
    (w w1 : World σ) (r : GetTokenResponse) (e : GoError)
    (h : GetToken env self (tokenParams P.contents) w = ((r, some e), w1)) :
    VerifySearch env self P w = Outcome.returned ((VerifySearchResponse.zero, none), P, w1) := by
  unfold VerifySearch
  simp only [h]

theorem VerifySearch_of_rejection {σ : Type} (env : Env σ) (self : Client) (P : MapValue)
    (w w1 : World σ) (tok : GetTokenResponse)
    (h : GetToken env self (tokenParams P.contents) w = ((tok, none), w1))
    (hcode : tok.ResultCode ≠ 0) :
    VerifySearch env self P w
      = Outcome.returned
          ((VerifySearchResponse.zero, some (errorsNew tok.ResultMessage)), P, w1) := by
  unfold VerifySearch
  simp only [h, hcode, ne_eq, not_false_eq_true, if_true]

/-- On a `nil` map the assignment of the token panics, after the token step
and before any request to the search endpoint. -/
theorem VerifySearch_of_nil {σ : Type} (env : Env σ) (self : Client)
    (w w1 : World σ) (tok : GetTokenResponse)
    (h : GetToken env self (tokenParams []) w = ((tok, none), w1)) (hcode : tok.ResultCode = 0) :
    VerifySearch env self MapValue.nil w
      = Outcome.panicked (str "assignment to entry in nil map") w1 := by
  unfold VerifySearch
  simp only [MapValue.contents, h, hcode, ne_eq, not_true_eq_false, if_false]

theorem VerifySearch_of_failed {σ : Type} (env : Env σ) (self : Client) (P : GoMap)
    (w w1 : World σ) (tok : GetTokenResponse) (err : GoError) (s : σ)
    (h : GetToken env self (tokenParams P) w = ((tok, none), w1)) (hcode : tok.ResultCode = 0)
    (hdo : env.clientDo
        (generateRequest env self (mapAssign P (str "token") tok.Token)
          (mapIndex endpointUrls (str "verifySearch")) w1).1.1
        (env.now w1.ext).2 = (RoundTrip.failed err, s)) :
    VerifySearch env self (MapValue.made P) w
      = Outcome.returned
          ((VerifySearchResponse.zero, some err),
            MapValue.made (mapAssign P (str "token") tok.Token),
            ⟨s, w1.trace ++ [Event.clientDo
              (generateRequest env self (mapAssign P (str "token") tok.Token)
                (mapIndex endpointUrls (str "verifySearch")) w1).1.1]⟩) := by
  unfold VerifySearch
  simp only [MapValue.contents, h, hcode, ne_eq, not_true_eq_false, if_false]
  rw [generateRequest_eq]
  simp only [httpDo, hdo]

theorem VerifySearch_of_response {σ : Type} (env : Env σ) (self : Client) (P : GoMap)
    (w w1 : World σ) (tok : GetTokenResponse) (B : List UInt8) (H : GoString) (s : σ)
    (h : GetToken env self (tokenParams P) w = ((tok, none), w1)) (hcode : tok.ResultCode = 0)
    (hdo : env.clientDo
        (generateRequest env self (mapAssign P (str "token") tok.Token)
          (mapIndex endpointUrls (str "verifySearch")) w1).1.1
        (env.now w1.ext).2 = (RoundTrip.response B H, s)) :
    VerifySearch env self (MapValue.made P) w
      = match validateResponseSignature B H self.sharedSecret with
        | some err =>
          Outcome.returned
            ((VerifySearchResponse.zero, some err),
              MapValue.made (mapAssign P (str "token") tok.Token),
              ⟨s, w1.trace ++ [Event.clientDo
                (generateRequest env self (mapAssign P (str "token") tok.Token)
                  (mapIndex endpointUrls (str "verifySearch")) w1).1.1]⟩)
        | none =>
          Outcome.returned
            (env.unmarshalSearch B VerifySearchResponse.zero,
              MapValue.made (mapAssign P (str "token") tok.Token),
              ⟨s, w1.trace ++ [Event.clientDo
                (generateRequest env self (mapAssign P (str "token") tok.Token)
                  (mapIndex endpointUrls (str "verifySearch")) w1).1.1]
                ++ [Event.unmarshal B]⟩) := by
  unfold VerifySearch
  simp only [MapValue.contents, h, hcode, ne_eq, not_true_eq_false, if_false]
  rw [generateRequest_eq]
  simp only [httpDo, hdo]
  cases hv : validateResponseSignature B H self.sharedSecret with
  | some err => rfl
  | none =>
    simp only
    rcases hd : env.unmarshalSearch B VerifySearchResponse.zero with ⟨obj, _ | e⟩ <;> rfl

/-- What the search step of `VerifySearch` does on an allocated map: the call
returns, the caller's map holds the token, and the trace gains one request,
then at most the decoding of the body. -/
theorem VerifySearch_trace {σ : Type} (env : Env σ) (self : Client) (P : GoMap) (w w1 : World σ)
    (tok : GetTokenResponse)
    (htok : GetToken env self (tokenParams P) w = ((tok, none), w1))
    (hcode : tok.ResultCode = 0) :
    (VerifySearch env self (MapValue.made P) w).params
      = some (MapValue.made (mapAssign P (str "token") tok.Token)) ∧
    ∃ rest, (VerifySearch env self (MapValue.made P) w).world.trace
        = w1.trace ++ Event.clientDo
            (generateRequest env self (mapAssign P (str "token") tok.Token)
              (mapIndex endpointUrls (str "verifySearch")) w1).1.1 :: rest ∧
      (∀ ev ∈ rest, ∃ c, ev = Event.unmarshal c) := by
  rcases hdo : env.clientDo
      (generateRequest env self (mapAssign P (str "token") tok.Token)
        (mapIndex endpointUrls (str "verifySearch")) w1).1.1
      (env.now w1.ext).2 with ⟨_ | ⟨B, H⟩, s⟩
  · rw [VerifySearch_of_failed env self P w w1 tok _ s htok hcode hdo]
    exact ⟨rfl, [], rfl, by simp⟩
  · rw [VerifySearch_of_response env self P w w1 tok B H s htok hcode hdo]
    cases validateResponseSignature B H self.sharedSecret with
    | some err => exact ⟨rfl, [], rfl, by simp⟩
    | none => exact ⟨rfl, [Event.unmarshal B], by simp [Outcome.world], by simp⟩

/-! ## The query string -/

theorem joinAmp_cons (x : GoString) (xs : List GoString) :
    joinAmp (x :: xs) = x ++ xs.flatMap (fun y => str "&" ++ y) := by
  induction xs generalizing x with
  | nil => simp [joinAmp]
  | cons y ys ih => simp [joinAmp, ih, List.flatMap_cons, List.append_assoc]

theorem str_eq : str "=" = [0x3d] := by decide

theorem encodeLoop_eq (data : GoMap) (ks : List GoString) (acc : GoString) (hacc : acc ≠ []) :
    ks.foldl
        (fun buf k =>
          (if buf.length > 0 then buf ++ str "&" else buf)
            ++ QueryEscape k ++ str "=" ++ QueryEscape (mapIndex data k))
        acc
      = acc ++ ks.flatMap
          (fun k => str "&" ++ (QueryEscape k ++ str "=" ++ QueryEscape (mapIndex data k))) := by
  induction ks generalizing acc with
  | nil => simp
  | cons k rest ih =>
    have hlen : acc.length > 0 := List.length_pos.2 hacc
    simp only [List.foldl_cons, hlen, if_true, List.flatMap_cons]
    rw [ih]
    · simp [List.append_assoc]
    · rw [str_eq]; simp

theorem valuesEncode_eq (data : GoMap) :
    valuesEncode data
      = joinAmp ((sortStrings (mapKeys data)).map
          (fun k => QueryEscape k ++ str "=" ++ QueryEscape (mapIndex data k))) := by
  unfold valuesEncode
  cases sortStrings (mapKeys data) with
  | nil => simp [joinAmp]
  | cons k rest =>
    simp only [List.foldl_cons, List.length_nil, gt_iff_lt, lt_self_iff_false, if_false,
      List.nil_append, List.map_cons]
    rw [encodeLoop_eq, joinAmp_cons, List.flatMap_map]
    rw [str_eq]; simp

theorem mapToQueryString_eq (R : GoMap) (hR : WellFormed R) :
    mapToQueryString R = referenceQuery R := by
  unfold mapToQueryString referenceQuery
  have hcopy : R.foldl (fun data kv => mapAssign data kv.1 kv.2) [] = R := by
    simpa using copyLoop_eq R [] (by simpa using hR)
  simp only [hcopy]
  rw [valuesEncode_eq, sortKeys_eq]

theorem joinAmp_mem (l : List GoString) (x : GoString) (h : x ∈ l) :
    ∃ pre post, joinAmp l = pre ++ x ++ post := by
  cases l with
  | nil => simp at h
  | cons y ys =>
    rw [joinAmp_cons]
    rcases List.mem_cons.1 h with hxy | hx
    · subst hxy
      exact ⟨[], ys.flatMap (fun z => str "&" ++ z), by simp⟩
    · obtain ⟨a, b, hab⟩ := List.append_of_mem hx
      refine ⟨y ++ a.flatMap (fun z => str "&" ++ z) ++ str "&",
        b.flatMap (fun z => str "&" ++ z), ?_⟩
      rw [hab]
      simp [List.flatMap_append, List.flatMap_cons, List.append_assoc]

theorem generateParameters_wellFormed (P : GoMap) (A S : GoString) (now : Int)
    (hP : WellFormed P) : WellFormed (generateParameters P A S now).copyParams := by
  rw [generateParameters_eq]
  simp only
  have hcopy : P.foldl (fun data kv => mapAssign data kv.1 kv.2) [] = P := by
    simpa using copyLoop_eq P [] (by simpa using hP)
  rw [hcopy]
  exact wellFormed_mapAssign _ _ _ (wellFormed_mapAssign _ _ _ (wellFormed_mapAssign _ _ _ hP))

theorem generateParameters_sig_of_not_mem (P : GoMap) (A S : GoString) (now : Int)
    (hsig : str "sig" ∉ mapKeys P) :
    mapIndex (generateParameters P A S now).copyParams (str "sig")
      = createSignature (mapDelete (generateParameters P A S now).copyParams (str "sig")) S := by
  rw [generateParameters_eq]
  simp only
  have hnot : str "sig" ∉ mapKeys
      (mapAssign
        (mapAssign (P.foldl (fun data kv => mapAssign data kv.1 kv.2) []) (str "app_id") A)
        (str "timestamp") (itoa now)) := by
    intro hmem
    rw [mem_mapKeys_mapAssign, mem_mapKeys_mapAssign, mem_mapKeys_copyLoop] at hmem
    rcases hmem with ((h | h) | h) | h
    · simp [mapKeys] at h
    · exact hsig h
    · exact absurd h (by decide)
    · exact absurd h (by decide)
  rw [mapDelete_mapAssign_of_not_mem _ _ _ hnot, mapIndex_mapAssign_self]

theorem generateRequest_method {σ : Type} (env : Env σ) (self : Client) (P : GoMap)
    (url : GoString) (w : World σ) :
    (generateRequest env self P url w).1.1.method = str "GET" := by
  simp [generateRequest, Request.headerAdd]

/-! ## C3 : no decoding without a validated signature -/

/-- C3: when `validateResponseSignature` returns an error `e` for the body `B`
and header value `H` that the transport hands back, `GetToken` returns the zero
`GetTokenResponse` with `e`, and `VerifySearch`, called on an allocated
(non-nil) map, returns in its search step the zero `VerifySearchResponse` with
`e`; in both the trace gains the request and nothing else, so `json.Unmarshal`
is not applied to `B`. -/
theorem signature_gate {σ : Type} (env : Env σ) (self : Client) (P : GoMap) (w : World σ)
    (B : List UInt8) (H : GoString) (e : GoError)
    (hv : validateResponseSignature B H self.sharedSecret = some e) :
    (∀ s : σ,
      env.clientDo (generateRequest env self P (mapIndex endpointUrls (str "getToken")) w).1.1
          (env.now w.ext).2 = (RoundTrip.response B H, s) →
      GetToken env self P w
        = ((GetTokenResponse.zero, some e),
            ⟨s, w.trace ++ [Event.clientDo
              (generateRequest env self P (mapIndex endpointUrls (str "getToken")) w).1.1]⟩)) ∧
    (∀ (tok : GetTokenResponse) (w1 : World σ) (s : σ),
      GetToken env self (tokenParams P) w = ((tok, none), w1) → tok.ResultCode = 0 →
      env.clientDo
          (generateRequest env self (mapAssign P (str "token") tok.Token)
            (mapIndex endpointUrls (str "verifySearch")) w1).1.1
          (env.now w1.ext).2 = (RoundTrip.response B H, s) →
      VerifySearch env self (MapValue.made P) w
        = Outcome.returned
            ((VerifySearchResponse.zero, some e),
              MapValue.made (mapAssign P (str "token") tok.Token),
              ⟨s, w1.trace ++ [Event.clientDo
                (generateRequest env self (mapAssign P (str "token") tok.Token)
                  (mapIndex endpointUrls (str "verifySearch")) w1).1.1]⟩)) := by
  constructor
  · intro s hdo
    rw [GetToken_of_response env self P w B H s hdo, hv]
  · intro tok w1 s htok hcode hdo
    rw [VerifySearch_of_response env self P w w1 tok B H s htok hcode hdo, hv]

/-- C3 on two runs: a token response with a wrong signature, and a search
response with a wrong signature after a good token response. -/
theorem signature_gate_witness :
    (GetToken (scenarioEnv Scenario.tokenBadSignature) testClient (tokenParams searchParams)
        ⟨0, []⟩).1
      = (GetTokenResponse.zero, some (errorsNew (str "Invalid Response Signature"))) ∧
    (VerifySearch (scenarioEnv Scenario.searchBadSignature) testClient
        (MapValue.made searchParams) ⟨0, []⟩).result
      = some (VerifySearchResponse.zero, some (errorsNew (str "Invalid Response Signature"))) :=
  ⟨congrArg Prod.fst
    ((signature_gate (scenarioEnv Scenario.tokenBadSignature) testClient (tokenParams searchParams)
      ⟨0, []⟩ sampleBody (str "00") (errorsNew (str "Invalid Response Signature"))
      (by decide)).1 1 (by decide)),
   congrArg Outcome.result
    ((signature_gate (scenarioEnv Scenario.searchBadSignature) testClient searchParams
      ⟨0, []⟩ searchBody (str "00") (errorsNew (str "Invalid Response Signature"))
      (by decide)).2
      (GetToken (scenarioEnv Scenario.searchBadSignature) testClient (tokenParams searchParams)
        ⟨0, []⟩).1.1
      (GetToken (scenarioEnv Scenario.searchBadSignature) testClient (tokenParams searchParams)
        ⟨0, []⟩).2
      2 (by decide) (by decide) (by decide))⟩

/-! ## C4 : a rejected token request ends the flow -/

/-- C4: when the token step returns a validated, decoded response `tok` with
a non-zero `ResultCode`, `VerifySearch` returns the zero
`VerifySearchResponse` and an error whose text is `tok.ResultMessage`; the
caller's map, `nil` or allocated, is returned as it was (no `token` entry is
written), the world is the one the token step left, and no request to the
search endpoint was added to the trace: the token step's single request is the
only one. -/
theorem token_rejection {σ : Type} (env : Env σ) (self : Client) (P : MapValue) (w w1 : World σ)
    (tok : GetTokenResponse)
    (htok : GetToken env self (tokenParams P.contents) w = ((tok, none), w1))
    (hcode : tok.ResultCode ≠ 0) :
    VerifySearch env self P w
      = Outcome.returned
          ((VerifySearchResponse.zero, some (errorsNew tok.ResultMessage)), P, w1) ∧
    (errorsNew tok.ResultMessage).text = tok.ResultMessage ∧
    requestsTo (mapIndex endpointUrls (str "verifySearch")) (VerifySearch env self P w).world.trace
      = requestsTo (mapIndex endpointUrls (str "verifySearch")) w.trace ∧
    requestCount (VerifySearch env self P w).world.trace = requestCount w.trace + 1 := by
  have hv := VerifySearch_of_rejection env self P w w1 tok htok hcode
  have hreq := GetToken_requests env self (tokenParams P.contents) w
  rw [htok] at hreq
  rw [hv]
  exact ⟨rfl, rfl, hreq.1, hreq.2.2⟩

/-- C4 on a run whose token response carries `result_code` 51. -/
theorem token_rejection_witness :
    (VerifySearch (scenarioEnv Scenario.tokenRejected) testClient (MapValue.made searchParams)
        ⟨0, []⟩).result
      = some (VerifySearchResponse.zero, some (errorsNew (str "Missing params"))) ∧
    (VerifySearch (scenarioEnv Scenario.tokenRejected) testClient (MapValue.made searchParams)
        ⟨0, []⟩).params
      = some (MapValue.made searchParams) ∧
    requestsTo (mapIndex endpointUrls (str "verifySearch"))
      (VerifySearch (scenarioEnv Scenario.tokenRejected) testClient (MapValue.made searchParams)
        ⟨0, []⟩).world.trace
      = 0 :=
  ⟨congrArg Outcome.result
    (token_rejection (scenarioEnv Scenario.tokenRejected) testClient (MapValue.made searchParams)
      ⟨0, []⟩
      (GetToken (scenarioEnv Scenario.tokenRejected) testClient (tokenParams searchParams)
        ⟨0, []⟩).2
      (GetToken (scenarioEnv Scenario.tokenRejected) testClient (tokenParams searchParams)
        ⟨0, []⟩).1.1
      (by decide) (by decide)).1,
   by decide, by decide⟩

/-! ## C5 : a failed token step -/

/-- Whatever error the token step returns, `VerifySearch` returns the zero
response with the `nil` error. -/
theorem token_error_swallowed {σ : Type} (env : Env σ) (self : Client) (P : MapValue)
    (w w1 : World σ) (r : GetTokenResponse) (e : GoError)
    (h : GetToken env self (tokenParams P.contents) w = ((r, some e), w1)) :
    (VerifySearch env self P w).result = some (VerifySearchResponse.zero, none) := by
  rw [VerifySearch_of_token_error env self P w w1 r e h]
  rfl

/-- C5 fails on the code: with the transport down, `GetToken` returns the
transport error, and `VerifySearch` returns the zero response with no error;
likewise when the token response carries a wrong signature. -/
theorem VerifySearch_returns_nil_on_token_error :
    (GetToken (scenarioEnv Scenario.down) testClient (tokenParams searchParams) ⟨0, []⟩).1
      = (GetTokenResponse.zero, some (errorsNew (str "connection refused"))) ∧
    (VerifySearch (scenarioEnv Scenario.down) testClient (MapValue.made searchParams)
        ⟨0, []⟩).result
      = some (VerifySearchResponse.zero, none) ∧
    (GetToken (scenarioEnv Scenario.tokenBadSignature) testClient (tokenParams searchParams)
        ⟨0, []⟩).1
      = (GetTokenResponse.zero, some (errorsNew (str "Invalid Response Signature"))) ∧
    (VerifySearch (scenarioEnv Scenario.tokenBadSignature) testClient
        (MapValue.made searchParams) ⟨0, []⟩).result
      = some (VerifySearchResponse.zero, none) := by
  decide

/-! ## C8 : the search request -/

theorem str_token_eq : QueryEscape (str "token") ++ str "=" = str "token=" := by decide

/-- C8 (as amended): for an allocated (non-nil) caller map `P`, when the token
step returns a validated, decoded response `tok` with `ResultCode` 0,
`VerifySearch` writes the token into the caller's map and adds exactly one
request to the trace, a `GET` to the search endpoint. Its query string is the
form-encoded `key=value` pairs, in ascending key order and joined by `&`, of
`generateParameters` applied to `P` with `token` set to `tok.Token`; it holds
the pair `token=` followed by the escaped token. In that parameter set `token`
is `tok.Token`, every key of `P` is present, every caller field other than
`token` and the three injected fields keeps its value, and `sig` is the
signature of the other fields when `P` has no `sig` of its own. -/
theorem search_request {σ : Type} (env : Env σ) (self : Client) (P : GoMap) (w w1 : World σ)
    (tok : GetTokenResponse) (hP : WellFormed P)
    (htok : GetToken env self (tokenParams P) w = ((tok, none), w1))
    (hcode : tok.ResultCode = 0) :
    (VerifySearch env self (MapValue.made P) w).params
      = some (MapValue.made (mapAssign P (str "token") tok.Token)) ∧
    (∃ rest, (VerifySearch env self (MapValue.made P) w).world.trace
        = w1.trace ++ Event.clientDo
            (generateRequest env self (mapAssign P (str "token") tok.Token)
              (mapIndex endpointUrls (str "verifySearch")) w1).1.1 :: rest ∧
      (∀ ev ∈ rest, ∃ c, ev = Event.unmarshal c)) ∧
    requestCount (VerifySearch env self (MapValue.made P) w).world.trace
      = requestCount w1.trace + 1 ∧
    requestsTo (mapIndex endpointUrls (str "verifySearch"))
        (VerifySearch env self (MapValue.made P) w).world.trace
      = requestsTo (mapIndex endpointUrls (str "verifySearch")) w1.trace + 1 ∧
    (generateRequest env self (mapAssign P (str "token") tok.Token)
        (mapIndex endpointUrls (str "verifySearch")) w1).1.1.method = str "GET" ∧
    (generateRequest env self (mapAssign P (str "token") tok.Token)
        (mapIndex endpointUrls (str "verifySearch")) w1).1.1.url
      = mapIndex endpointUrls (str "verifySearch") ++ str "?" ++ referenceQuery
          (generateParameters (mapAssign P (str "token") tok.Token) self.appId self.sharedSecret
            (env.now w1.ext).1).copyParams ∧
    (∃ pre post,
      (generateRequest env self (mapAssign P (str "token") tok.Token)
          (mapIndex endpointUrls (str "verifySearch")) w1).1.1.url
        = mapIndex endpointUrls (str "verifySearch") ++ str "?"
            ++ (pre ++ (str "token=" ++ QueryEscape tok.Token) ++ post)) ∧
    mapIndex (generateParameters (mapAssign P (str "token") tok.Token) self.appId
        self.sharedSecret (env.now w1.ext).1).copyParams (str "token") = tok.Token ∧
    (∀ k, k ∈ mapKeys P →
      k ∈ mapKeys (generateParameters (mapAssign P (str "token") tok.Token) self.appId
        self.sharedSecret (env.now w1.ext).1).copyParams) ∧
    (∀ k, k ∈ mapKeys P → k ≠ str "token" → k ≠ str "app_id" → k ≠ str "timestamp" →
      k ≠ str "sig" →
      mapIndex (generateParameters (mapAssign P (str "token") tok.Token) self.appId
        self.sharedSecret (env.now w1.ext).1).copyParams k = mapIndex P k) ∧
    (str "sig" ∉ mapKeys P →
      mapIndex (generateParameters (mapAssign P (str "token") tok.Token) self.appId
          self.sharedSecret (env.now w1.ext).1).copyParams (str "sig")
        = createSignature
            (mapDelete (generateParameters (mapAssign P (str "token") tok.Token) self.appId
              self.sharedSecret (env.now w1.ext).1).copyParams (str "sig"))
            self.sharedSecret) := by
  have hP' : WellFormed (mapAssign P (str "token") tok.Token) := wellFormed_mapAssign _ _ _ hP
  have hR := generateParameters_wellFormed (mapAssign P (str "token") tok.Token) self.appId
    self.sharedSecret (env.now w1.ext).1 hP'
  have htokR : mapIndex (generateParameters (mapAssign P (str "token") tok.Token) self.appId
      self.sharedSecret (env.now w1.ext).1).copyParams (str "token") = tok.Token := by
    rw [generateParameters_index_of_ne _ _ _ _ hP' _ (by decide) (by decide) (by decide),
      mapIndex_mapAssign_self]
  have hurl : (generateRequest env self (mapAssign P (str "token") tok.Token)
        (mapIndex endpointUrls (str "verifySearch")) w1).1.1.url
      = mapIndex endpointUrls (str "verifySearch") ++ str "?" ++ referenceQuery
          (generateParameters (mapAssign P (str "token") tok.Token) self.appId self.sharedSecret
            (env.now w1.ext).1).copyParams := by
    rw [generateRequest_url, mapToQueryString_eq _ hR]
  obtain ⟨hparams, htrace⟩ := VerifySearch_trace env self P w w1 tok htok hcode
  refine ⟨hparams, htrace, ?_, ?_, generateRequest_method _ _ _ _ _, hurl, ?_, htokR, ?_, ?_, ?_⟩
  · obtain ⟨rest, ht, hrest⟩ := htrace
    rw [ht, requestCount_append, ← List.singleton_append, requestCount_append,
      requestCount_unmarshals rest hrest]
    simp [requestCount]
  · obtain ⟨rest, ht, hrest⟩ := htrace
    rw [ht, requestsTo_append, ← List.singleton_append, requestsTo_append,
      requestsTo_unmarshals _ rest hrest]
    simp [requestsTo, generateRequest_url, isPrefixOf_self_append, List.append_assoc]
  · have hmem : str "token" ∈ sortKeys
        (generateParameters (mapAssign P (str "token") tok.Token) self.appId self.sharedSecret
          (env.now w1.ext).1).copyParams := by
      rw [mem_sortKeys, generateParameters_mem_keys, mem_mapKeys_mapAssign]
      exact Or.inl (Or.inr rfl)
    obtain ⟨pre, post, hsplit⟩ := joinAmp_mem _ _
      (List.mem_map_of_mem
        (fun k => QueryEscape k ++ str "=" ++ QueryEscape
          (mapIndex (generateParameters (mapAssign P (str "token") tok.Token) self.appId
            self.sharedSecret (env.now w1.ext).1).copyParams k)) hmem)
    refine ⟨pre, post, ?_⟩
    rw [hurl]
    unfold referenceQuery
    rw [hsplit]
    beta_reduce
    rw [htokR, str_token_eq]
  · intro k hk
    rw [generateParameters_mem_keys, mem_mapKeys_mapAssign]
    exact Or.inl (Or.inl hk)
  · intro k _ h0 h1 h2 h3
    rw [generateParameters_index_of_ne _ _ _ _ hP' _ h1 h2 h3, mapIndex_mapAssign_ne _ _ _ _ h0]
  · intro hsig
    refine generateParameters_sig_of_not_mem _ _ _ _ ?_
    rw [mem_mapKeys_mapAssign]
    rintro (h | h)
    · exact hsig h
    · exact absurd h (by decide)

/-- C8 (as amended) on a run in which both endpoints answer with valid
signatures: two requests in all, with these URLs; the second goes to the search
endpoint and carries `token=t1` and the escaped number. -/
theorem search_request_witness :
    requestCount
      (VerifySearch (scenarioEnv Scenario.allGood) testClient (MapValue.made searchParams)
        ⟨0, []⟩).world.trace
      = 2 ∧
    requestUrls
      (VerifySearch (scenarioEnv Scenario.allGood) testClient (MapValue.made searchParams)
        ⟨0, []⟩).world.trace
      = [str ("https://api.nexmo.com/sdk/token/json?app_id=appId&device_id=dev1"
            ++ "&sig=588f86ca24307008389c616f3e9475a1&source_ip_address=127.0.0.1"
            ++ "&timestamp=1700000000"),
         str ("https://api.nexmo.com/sdk/verify/search/json?app_id=appId&device_id=dev1"
            ++ "&number=%2B521111111111&sig=27c9ddc88c0dabd22b7a8887cf805a30"
            ++ "&source_ip_address=127.0.0.1&timestamp=1700000000&token=t1")] ∧
    mapIndex (generateParameters (mapAssign searchParams (str "token") (str "t1"))
        (str "appId") (str "secret") 1700000000).copyParams (str "token") = str "t1" :=
  ⟨((search_request (scenarioEnv Scenario.allGood) testClient searchParams ⟨0, []⟩
      (GetToken (scenarioEnv Scenario.allGood) testClient (tokenParams searchParams) ⟨0, []⟩).2
      (GetToken (scenarioEnv Scenario.allGood) testClient (tokenParams searchParams) ⟨0, []⟩).1.1
      (by decide) (by decide) (by decide)).2.2.1).trans (by decide),
   by decide,
   (search_request (scenarioEnv Scenario.allGood) testClient searchParams ⟨0, []⟩
      (GetToken (scenarioEnv Scenario.allGood) testClient (tokenParams searchParams) ⟨0, []⟩).2
      (GetToken (scenarioEnv Scenario.allGood) testClient (tokenParams searchParams) ⟨0, []⟩).1.1
      (by decide) (by decide) (by decide)).2.2.2.2.2.2.2.1⟩

/-- C8 as stated fails on the `nil` map: the token step succeeds with
`result_code` 0 and token `t1`, then `VerifySearch` panics at the assignment of
the token. One request was sent, to the token endpoint; no follow-up request is
issued. -/
theorem search_request_nil_map :
    (GetToken (scenarioEnv Scenario.allGood) testClient (tokenParams MapValue.nil.contents)
        ⟨0, []⟩).1
      = ({ ResultCode := 0, ResultMessage := [], Timestamp := [], Token := str "t1" }, none) ∧
    VerifySearch (scenarioEnv Scenario.allGood) testClient MapValue.nil ⟨0, []⟩
      = Outcome.panicked (str "assignment to entry in nil map")
          (GetToken (scenarioEnv Scenario.allGood) testClient
            (tokenParams MapValue.nil.contents) ⟨0, []⟩).2 ∧
    requestUrls
      (VerifySearch (scenarioEnv Scenario.allGood) testClient MapValue.nil ⟨0, []⟩).world.trace
      = [str ("https://api.nexmo.com/sdk/token/json?app_id=appId&device_id="
            ++ "&sig=a8c71f26ee5efe170a56cb7e5ddc31dc&source_ip_address="
            ++ "&timestamp=1700000000")] ∧
    requestsTo (mapIndex endpointUrls (str "verifySearch"))
      (VerifySearch (scenarioEnv Scenario.allGood) testClient MapValue.nil ⟨0, []⟩).world.trace
      = 0 := by
  decide

end NexmoVerify
